import Mathlib

/-!
Verification development for the `gke-pvc-snapshooter` retention tool
(`src/main.py`).  The script walks all disks of one GCP project/zone,
filters the disks that are managed by the Kubernetes orchestrator
(`is_snapshots_enabled`), ensures each such disk has a recent snapshot
(`is_recent_snapshot_exists` / `make_snapshot`) and prunes snapshots it
owns that aged past the retention window (`delete_obsolete_snapshots`),
waiting on the provider's asynchronous operations (`_wait_for_operation`).

The embedding below translates `src/main.py` into pure Lean functions:
  * Python `dict` values parsed from JSON become the inductive `PyVal`;
  * the `json` standard library is an external collaborator and is
    modelled by the interface `JsonLib` (an arbitrary parse function
    together with the documented fact that parsing the empty string
    fails, which `json.loads('')` does);
  * the cloud Gateway state (disks and snapshots of the project) becomes
    the structure `Cloud`; the Gateway's mutation calls become pure
    state transitions, and every issued call is recorded in `Act`;
  * timestamps are naive UTC `PyDateTime` records; age arithmetic works
    on absolute seconds (`PyDateTime.toSec`), snapshot creation stamps
    are absolute seconds (the value `dateutil.parser.parse` yields);
  * exceptions become `Except PyErr`; `log.info` decision lines become
    `Event` values so that decision traces can be compared.
-/

/-- A Python value as produced by `json.loads`: `None`, booleans,
integers, strings, lists and string-keyed dicts. -/
inductive PyVal where
  | null : PyVal
  | bool (b : Bool) : PyVal
  | num (n : Int) : PyVal
  | str (s : String) : PyVal
  | arr (xs : List PyVal) : PyVal
  | obj (kvs : List (String × PyVal)) : PyVal

/-- Python truthiness (`bool(v)`), used by the `if not d.get(k)` checks of
`is_snapshots_enabled`. -/
def PyVal.truthy : PyVal → Bool
  | .null => false
  | .bool b => b
  | .num n => n != 0
  | .str s => s != ""
  | .arr xs => !xs.isEmpty
  | .obj kvs => !kvs.isEmpty

/-- Whether a Python value is a dict; `.get` exists exactly on dicts; on
any other value the attribute access raises `AttributeError`. -/
def PyVal.isDict : PyVal → Bool
  | .obj _ => true
  | _ => false

/-- Lookup in a string-keyed dict (`d.get(k)`, returning `None` as
`Option.none` when the key is absent). -/
def assocFind (kvs : List (String × PyVal)) (k : String) : Option PyVal :=
  match kvs with
  | [] => Option.none
  | (k', v) :: rest => if k' = k then some v else assocFind rest k

mutual

/-- Python `str(v)` as used by `'{}--{}'.format(basename, ts)`:
identity on strings, Python rendering on the other values. -/
def pyStr : PyVal → String
  | .str s => s
  | v => pyRepr v

/-- Python `repr(v)` for values nested inside containers. -/
def pyRepr : PyVal → String
  | .null => "None"
  | .bool true => "True"
  | .bool false => "False"
  | .num n => toString n
  | .str s => "'" ++ s ++ "'"
  | .arr xs => "[" ++ pyReprList xs ++ "]"
  | .obj kvs => "\x7b" ++ pyReprObj kvs ++ "\x7d"

/-- Comma-separated rendering of a Python list body. -/
def pyReprList : List PyVal → String
  | [] => ""
  | [x] => pyRepr x
  | x :: xs => pyRepr x ++ ", " ++ pyReprList xs

/-- Comma-separated rendering of a Python dict body. -/
def pyReprObj : List (String × PyVal) → String
  | [] => ""
  | [(k, v)] => "'" ++ k ++ "': " ++ pyRepr v
  | (k, v) :: kvs => "'" ++ k ++ "': " ++ pyRepr v ++ ", " ++ pyReprObj kvs

end

/-- Interface of the Python `json` library (an external collaborator of
the script).  `loads` maps a string to the parsed value, `Option.none`
standing for the `ValueError` that `json.loads` raises on unparsable
input; `loads_empty` records the documented fact that parsing the empty
string fails, which `is_snapshots_enabled` relies on via
`disk.get('description', '')`. -/
structure JsonLib where
  loads : String → Option PyVal
  loads_empty : loads "" = Option.none

/-- The Python exceptions the modelled per-disk code can raise. -/
inductive PyErr where
  | attributeError : PyErr
  | keyError : PyErr
deriving DecidableEq, Repr

/-- The `log.info` decision lines of the script, kept as a trace so that
decisions of two runs can be compared. -/
inductive Event where
  | checking (disk : String) : Event
  | skipUnmanaged (disk : String) : Event
  | skipBadJson (disk : String) : Event
  | skipNoPV (disk : String) : Event
  | skipNoPVC (disk : String) : Event
  | skipNoNamespace (disk : String) : Event
  | foundRecent (ts : Int) : Event
  | creating (snap : String) (disk : String) : Event
  | deleting (snap : String) : Event
  | failedDisk (disk : String) : Event
deriving DecidableEq, Repr

/-- A GCE disk record as listed by the Gateway: its `name`, the optional
`description` string, and the `_meta` entry that `is_snapshots_enabled`
attaches after a successful JSON parse (absent on a freshly listed
disk). -/
structure Disk where
  name : String
  description : Option String
  meta : Option PyVal

/-- A GCE snapshot record: its `name`, `description`, creation timestamp
(absolute seconds, the parse of the provider's textual
`creationTimestamp`) and the URI of its source disk. -/
structure Snapshot where
  name : String
  description : String
  creationTimestamp : Int
  sourceDisk : String
deriving DecidableEq, Repr

/-- The provider-side state the script reads and mutates: the disks of
the zone and the snapshots of the project. -/
structure Cloud where
  disks : List Disk
  snapshots : List Snapshot

/-- The Gateway calls a run issues, and its decision log: `creates`
holds one `(name, description)` pair per `createSnapshot` call,
`deletes` one snapshot name per `delete` call, `ops` the operation
handles appended to `self.operations`, `waits` the operations blocked
on by `_wait_for_operation`, and `log` the decision lines. -/
structure Act where
  creates : List (String × String)
  deletes : List String
  ops : List String
  waits : List String
  log : List Event
deriving DecidableEq, Repr

/-- The empty action record. -/
def Act.nil : Act := ⟨[], [], [], [], []⟩

/-- Concatenation of two action records. -/
def Act.app (a b : Act) : Act :=
  ⟨a.creates ++ b.creates, a.deletes ++ b.deletes, a.ops ++ b.ops,
   a.waits ++ b.waits, a.log ++ b.log⟩

/-- The `Snapshooter` instance: constructor arguments plus the class
attributes `bias`, `min_age`, `max_age` (seconds) and the ownership
marker `description_prefix`. -/
structure Snapshooter where
  project : String
  zone : String
  is_async : Bool
  dry_run : Bool
  bias : Int
  min_age : Int
  max_age : Int
  marker : String
deriving DecidableEq, Repr

/-- `Snapshooter(project, zone, is_async, dry_run)` with the class
attribute values of `src/main.py`: `bias` one hour, `min_age` one day,
`max_age` thirty days, `description_prefix` the string `'[auto] '`. -/
def Snapshooter.build (project zone : String) (is_async dry_run : Bool) : Snapshooter :=
  ⟨project, zone, is_async, dry_run, 3600, 86400, 2592000, "[auto] "⟩

/-- Python `s.startswith(pre)`, which is also the semantics of the
Gateway snapshot filter `description eq <escaped marker>.*`. -/
def pyStarts (pre s : String) : Bool := pre.data.isPrefixOf s.data

example : pyStarts "gke-" "gke-pvc-1" = true := by decide
example : pyStarts "gke-" "pvc-1" = false := by decide
example : (PyVal.obj [("a", PyVal.str "x")]).truthy = true := by decide

/-- A naive-UTC Python `datetime` (the script only ever builds UTC
datetimes, and `replace(tzinfo=None)` strips the timezone before
formatting, so the model keeps no timezone). -/
structure PyDateTime where
  year : Nat
  month : Nat
  day : Nat
  hour : Nat
  minute : Nat
  second : Nat
deriving DecidableEq, Repr

/-- Days since the Unix epoch of a Gregorian calendar date (the standard
civil-from-days inverse); used to give `PyDateTime` an absolute-seconds
value so that `datetime` subtraction is plain integer subtraction. -/
def daysFromCivil (y : Int) (m : Nat) (d : Nat) : Int :=
  let y' : Int := if m ≤ 2 then y - 1 else y
  let era : Int := (if 0 ≤ y' then y' else y' - 399) / 400
  let yoe : Int := y' - era * 400
  let mp : Nat := (m + 9) % 12
  let doy : Int := ((153 * mp + 2) / 5 : Nat) + (d : Int) - 1
  let doe : Int := yoe * 365 + yoe / 4 - yoe / 100 + doy
  era * 146097 + doe - 719468

/-- Absolute seconds since the Unix epoch of a naive UTC datetime. -/
def PyDateTime.toSec (t : PyDateTime) : Int :=
  86400 * daysFromCivil (t.year : Int) t.month t.day
    + 3600 * (t.hour : Int) + 60 * (t.minute : Int) + (t.second : Int)

/-- The decimal digit character of `n % 10`. -/
def digitChar (n : Nat) : Char :=
  match n % 10 with
  | 0 => '0'
  | 1 => '1'
  | 2 => '2'
  | 3 => '3'
  | 4 => '4'
  | 5 => '5'
  | 6 => '6'
  | 7 => '7'
  | 8 => '8'
  | _ => '9'

/-- Decimal digits of `n` (most significant first), with explicit fuel;
`fuel = n + 1` always suffices. -/
def natDigitsAux : Nat → Nat → List Char
  | 0, _ => []
  | fuel + 1, n =>
    if n < 10 then [digitChar n]
    else natDigitsAux fuel (n / 10) ++ [digitChar (n % 10)]

/-- Decimal digits of `n`, most significant first (`"0"` for zero). -/
def natDigits (n : Nat) : List Char := natDigitsAux (n + 1) n

/-- Zero-padded decimal rendering to width `w` (C `%0wd`, which is what
`datetime.isoformat` uses for its fields). -/
def padNum (w n : Nat) : List Char :=
  List.replicate (w - (natDigits n).length) '0' ++ natDigits n

/-- The characters of `t.isoformat('T', 'seconds')` on a naive datetime:
`YYYY-MM-DDTHH:MM:SS`, with no timezone suffix. -/
def isoChars (t : PyDateTime) : List Char :=
  padNum 4 t.year ++ ['-'] ++ padNum 2 t.month ++ ['-'] ++ padNum 2 t.day
    ++ ['T'] ++ padNum 2 t.hour ++ [':'] ++ padNum 2 t.minute
    ++ [':'] ++ padNum 2 t.second

/-- Python `s.replace(old, new)` for a one-character pattern `old`, at
the character-list level. -/
def pyReplace1 (old : Char) (new : List Char) : List Char → List Char
  | [] => []
  | c :: cs => (if c = old then new else [c]) ++ pyReplace1 old new cs

/-- The timestamp part of a generated snapshot name, translated from
`ts.replace(tzinfo=None).isoformat('T', 'seconds').replace(':', '-')
.replace('T', '--')` in `generate_snapshot_name`. -/
def tsChars (t : PyDateTime) : List Char :=
  pyReplace1 'T' ['-', '-'] (pyReplace1 ':' ['-'] (isoChars t))

/-- Timestamp format written from the spec's words: ISO-8601 at seconds
precision with every colon replaced by a dash and the date/time
separator replaced by a double dash, no timezone suffix. -/
def specTimestamp (t : PyDateTime) : String :=
  String.mk (padNum 4 t.year) ++ "-" ++ String.mk (padNum 2 t.month) ++ "-"
    ++ String.mk (padNum 2 t.day) ++ "--" ++ String.mk (padNum 2 t.hour)
    ++ "-" ++ String.mk (padNum 2 t.minute) ++ "-" ++ String.mk (padNum 2 t.second)

example : String.mk (tsChars ⟨2018, 3, 9, 17, 5, 41⟩) = "2018-03-09--17-05-41" := by rfl
example : specTimestamp ⟨2018, 3, 9, 17, 5, 41⟩ = "2018-03-09--17-05-41" := by rfl

/-- The three metadata keys `is_snapshots_enabled` requires. -/
def pvKey : String := "kubernetes.io/created-for/pv/name"

/-- The claim-name metadata key. -/
def pvcKey : String := "kubernetes.io/created-for/pvc/name"

/-- The claim-namespace metadata key. -/
def pvcNsKey : String := "kubernetes.io/created-for/pvc/namespace"

/-- The disk URI the script builds for the Gateway's `sourceDisk`
filter (`'https://www.googleapis.com/compute/v1/projects/{}/zones/{}/disks/{}'`). -/
def diskUri (cfg : Snapshooter) (disk : Disk) : String :=
  "https://www.googleapis.com/compute/v1/projects/" ++ cfg.project
    ++ "/zones/" ++ cfg.zone ++ "/disks/" ++ disk.name

/-- `Snapshooter.is_snapshots_enabled`, translated line by line: the
`gke-` name check, the `json.loads` of `disk.get('description', '')`
whose `ValueError` is caught, the `_meta` attachment, and the three
truthiness checks via `.get`.  When the parsed value is not a dict the
`.get` attribute access raises `AttributeError`, which the function does
not catch.  Returns the decision, the (possibly `_meta`-extended) disk
and the logged decision lines. -/
def is_snapshots_enabled (lib : JsonLib) (disk : Disk) :
    Except PyErr (Bool × Disk × List Event) :=
  if pyStarts "gke-" disk.name = false then
    .ok (false, disk, [Event.skipUnmanaged disk.name])
  else
    match lib.loads (disk.description.getD "") with
    | Option.none => .ok (false, disk, [Event.skipBadJson disk.name])
    | some v =>
      let disk' : Disk := { disk with meta := some v }
      match v with
      | PyVal.obj kvs =>
        if ((assocFind kvs pvKey).getD PyVal.null).truthy = false then
          .ok (false, disk', [Event.skipNoPV disk.name])
        else if ((assocFind kvs pvcKey).getD PyVal.null).truthy = false then
          .ok (false, disk', [Event.skipNoPVC disk.name])
        else if ((assocFind kvs pvcNsKey).getD PyVal.null).truthy = false then
          .ok (false, disk', [Event.skipNoNamespace disk.name])
        else
          .ok (true, disk', [])
      | _ => .error PyErr.attributeError

/-- `Snapshooter.get_snapshots`: the snapshots the Gateway returns for
the filter `sourceDisk eq <disk URI>`, restricted (for `only_ours`) to
descriptions matching the `description eq <escaped prefix>.*` pattern,
i.e. descriptions starting with the marker. -/
def get_snapshots (cfg : Snapshooter) (cloud : Cloud) (disk : Disk)
    (only_ours : Bool) : List Snapshot :=
  cloud.snapshots.filter fun s =>
    s.sourceDisk == diskUri cfg disk
      && (!only_ours || pyStarts cfg.marker s.description)

/-- The loop body condition of `is_recent_snapshot_exists`:
`now - snap['_ts'] <= self.min_age - self.bias`. -/
def isFresh (cfg : Snapshooter) (nowSec : Int) (s : Snapshot) : Bool :=
  nowSec - s.creationTimestamp ≤ cfg.min_age - cfg.bias

/-- The loop body condition of `delete_obsolete_snapshots`:
`now - snap['_ts'] > self.max_age + self.bias`. -/
def isObsolete (cfg : Snapshooter) (nowSec : Int) (s : Snapshot) : Bool :=
  cfg.max_age + cfg.bias < nowSec - s.creationTimestamp

/-- `Snapshooter.is_recent_snapshot_exists`: scans all snapshots of the
disk (owned or not) and returns at the first one within
`min_age - bias`, logging its timestamp. -/
def is_recent_snapshot_exists (cfg : Snapshooter) (cloud : Cloud)
    (disk : Disk) (now : PyDateTime) : Bool × List Event :=
  match (get_snapshots cfg cloud disk false).find? (isFresh cfg now.toSec) with
  | some s => (true, [Event.foundRecent s.creationTimestamp])
  | Option.none => (false, [])

/-- `Snapshooter.generate_snapshot_name`:
`'{}--{}'.format(disk['_meta']['kubernetes.io/created-for/pv/name'], ts)`
with the timestamp formatted by `tsChars`; direct indexing of a missing
`_meta` entry or a missing key raises `KeyError` (`AttributeError` when
`_meta` is not a dict). -/
def generate_snapshot_name (disk : Disk) (ts : PyDateTime) : Except PyErr String :=
  match disk.meta with
  | Option.none => .error PyErr.keyError
  | some (PyVal.obj kvs) =>
    match assocFind kvs pvKey with
    | some v => .ok (pyStr v ++ "--" ++ String.mk (tsChars ts))
    | Option.none => .error PyErr.keyError
  | some _ => .error PyErr.attributeError

/-- `Snapshooter.generate_snapshot_description`:
`'{}{}'.format(self.description_prefix, disk['description'])`; direct
indexing of a missing `description` key raises `KeyError`. -/
def generate_snapshot_description (cfg : Snapshooter) (disk : Disk) :
    Except PyErr String :=
  match disk.description with
  | some d => .ok (cfg.marker ++ d)
  | Option.none => .error PyErr.keyError

/-- `Snapshooter.make_snapshot`: generate name and description, log the
intent, stop there under `--dry-run`; otherwise issue the Gateway
`createSnapshot` call (the provider adds a snapshot whose source is the
disk's URI and whose creation timestamp is the current time), wait for
the operation unless `--async`, and record the operation. -/
def make_snapshot (cfg : Snapshooter) (cloud : Cloud) (disk : Disk)
    (now : PyDateTime) : Except PyErr (Cloud × Act) :=
  match generate_snapshot_name disk now with
  | .error e => .error e
  | .ok name =>
    match generate_snapshot_description cfg disk with
    | .error e => .error e
    | .ok descr =>
      let ev : List Event := [Event.creating name disk.name]
      if cfg.dry_run then
        .ok (cloud, ⟨[], [], [], [], ev⟩)
      else
        let snap : Snapshot := ⟨name, descr, now.toSec, diskUri cfg disk⟩
        let cloud' : Cloud := { cloud with snapshots := cloud.snapshots ++ [snap] }
        let op : String := "create-" ++ name
        .ok (cloud', ⟨[(name, descr)], [], [op],
                      if cfg.is_async then [] else [op], ev⟩)

/-- `Snapshooter.delete_snapshot`: log the intent, stop there under
`--dry-run`; otherwise issue the Gateway `delete` call (the provider
removes the snapshots carrying that name), wait for the operation unless
`--async`, and record the operation. -/
def delete_snapshot (cfg : Snapshooter) (cloud : Cloud) (snap : Snapshot) :
    Cloud × Act :=
  let ev : List Event := [Event.deleting snap.name]
  if cfg.dry_run then
    (cloud, ⟨[], [], [], [], ev⟩)
  else
    let cloud' : Cloud :=
      { cloud with snapshots := cloud.snapshots.filter fun t => t.name ≠ snap.name }
    let op : String := "delete-" ++ snap.name
    (cloud', ⟨[], [snap.name], [op], if cfg.is_async then [] else [op], ev⟩)

/-- The `for snap in ...` loop of `delete_obsolete_snapshots`, iterating
over the snapshot list fetched once at entry. -/
def delete_loop (cfg : Snapshooter) (nowSec : Int) :
    Cloud → List Snapshot → Cloud × Act
  | cloud, [] => (cloud, Act.nil)
  | cloud, s :: rest =>
    if isObsolete cfg nowSec s then
      let (c1, a1) := delete_snapshot cfg cloud s
      let (c2, a2) := delete_loop cfg nowSec c1 rest
      (c2, a1.app a2)
    else
      delete_loop cfg nowSec cloud rest

/-- `Snapshooter.delete_obsolete_snapshots`: fetch the owned snapshots
of the disk, then delete every one older than `max_age + bias`. -/
def delete_obsolete_snapshots (cfg : Snapshooter) (cloud : Cloud)
    (disk : Disk) (now : PyDateTime) : Cloud × Act :=
  delete_loop cfg now.toSec cloud (get_snapshots cfg cloud disk true)

/-- `Snapshooter.handle_disk`: log the check, stop for ineligible disks,
create a snapshot when no recent one exists, and always run the
obsolete-snapshot deletion for eligible disks.  All three
`datetime_now()` calls of one disk's handling are modelled as the same
instant `now`. -/
def handle_disk (cfg : Snapshooter) (lib : JsonLib) (cloud : Cloud)
    (disk : Disk) (now : PyDateTime) : Except PyErr (Cloud × Act) :=
  let ev0 : List Event := [Event.checking disk.name]
  match is_snapshots_enabled lib disk with
  | .error e => .error e
  | .ok (enabled, disk', ev1) =>
    if enabled = false then
      .ok (cloud, ⟨[], [], [], [], ev0 ++ ev1⟩)
    else
      let (recent, ev2) := is_recent_snapshot_exists cfg cloud disk' now
      let step : Except PyErr (Cloud × Act) :=
        if recent then .ok (cloud, Act.nil)
        else make_snapshot cfg cloud disk' now
      match step with
      | .error e => .error e
      | .ok (cloud1, act1) =>
        let (cloud2, act2) := delete_obsolete_snapshots cfg cloud1 disk' now
        .ok (cloud2, Act.app ⟨[], [], [], [], ev0 ++ ev1 ++ ev2⟩ (act1.app act2))

/-- The `for disk in disks: try ... except` loop of `do_routine`: every
exception of one disk's handling is caught at the per-disk boundary and
the loop continues with the next disk; one `(disk name, caught error)`
record is produced per listed disk.  (In the source a failing handler
may leave earlier Gateway mutations in place; in this model every
raising path of `handle_disk` raises before its first mutation, so
keeping the pre-call state is exact.) -/
def per_disk_loop {σ ε : Type} (handle : σ → Disk → Except ε σ) :
    σ → List Disk → σ × List (String × Option ε)
  | st, [] => (st, [])
  | st, d :: ds =>
    match handle st d with
    | .ok st' =>
      ((per_disk_loop handle st' ds).1, (d.name, Option.none) :: (per_disk_loop handle st' ds).2)
    | .error e =>
      ((per_disk_loop handle st ds).1, (d.name, some e) :: (per_disk_loop handle st ds).2)

/-- One disk step of the pass: run `handle_disk` on the current cloud
and append its issued calls and log. -/
def pass_step (cfg : Snapshooter) (lib : JsonLib) (now : PyDateTime)
    (st : Cloud × Act) (disk : Disk) : Except PyErr (Cloud × Act) :=
  match handle_disk cfg lib st.1 disk now with
  | .error e => .error e
  | .ok (c, a) => .ok (c, st.2.app a)

/-- A full pass of `do_routine` after a successful disk listing: handle
every listed disk in order, catching per-disk failures. -/
def run_pass (cfg : Snapshooter) (lib : JsonLib) (cloud : Cloud)
    (now : PyDateTime) : (Cloud × Act) × List (String × Option PyErr) :=
  per_disk_loop (pass_step cfg lib now) (cloud, Act.nil) cloud.disks

/-- `Snapshooter.do_routine`: the initial `disks().list` Gateway call
may itself fail, in which case the failure propagates; otherwise the
pass runs over the listed disks and never raises. -/
def do_routine (cfg : Snapshooter) (lib : JsonLib) (now : PyDateTime)
    (listing : Except String Cloud) :
    Except String ((Cloud × Act) × List (String × Option PyErr)) :=
  match listing with
  | .error e => .error e
  | .ok cloud => .ok (run_pass cfg lib cloud now)

/-- One poll answer of the `zoneOperations().get` call inside
`_wait_for_operation`: either an `HttpError` with its response status,
or an operation resource with its `status` string and optional `error`
payload. -/
inductive PollResponse where
  | httpError (status : Nat) : PollResponse
  | opResult (status : String) (error : Option String) : PollResponse
deriving DecidableEq, Repr

/-- The terminal outcome of `_wait_for_operation`: normal return after
`polls` polls, the `Exception(result['error'])` raised on a DONE result
carrying an error, an uncaught `HttpError`, or exhaustion of the
modelled poll sequence (the source loop would keep polling). -/
inductive WaitOutcome where
  | success (polls : Nat) : WaitOutcome
  | failed (payload : String) : WaitOutcome
  | transport (status : Nat) : WaitOutcome
  | ranOut : WaitOutcome
deriving DecidableEq, Repr

/-- `Snapshooter._wait_for_operation`, driven by the sequence of poll
answers the provider gives: a 404 `HttpError` returns `None`
immediately, any other `HttpError` is re-raised, a DONE result raises
when it carries an error payload and returns otherwise, and any other
result sleeps and polls again. -/
def wait_for_operation : List PollResponse → WaitOutcome
  | [] => WaitOutcome.ranOut
  | PollResponse.httpError st :: _ =>
    if st = 404 then WaitOutcome.success 1 else WaitOutcome.transport st
  | PollResponse.opResult st err :: rest =>
    if st = "DONE" then
      match err with
      | some e => WaitOutcome.failed e
      | Option.none => WaitOutcome.success 1
    else
      match wait_for_operation rest with
      | WaitOutcome.success n => WaitOutcome.success (n + 1)
      | r => r

/-- A poll answer that is neither an `HttpError` nor DONE (the claims'
PENDING polls). -/
def PollResponse.pending : PollResponse → Bool
  | PollResponse.opResult st _ => st != "DONE"
  | _ => false

/-- JSON text of a typical orchestrator-managed disk description (the
braces written as escapes). -/
def demoJsonText : String :=
  "\x7b\"kubernetes.io/created-for/pv/name\": \"pv-1\", \"kubernetes.io/created-for/pvc/name\": \"claim-1\", \"kubernetes.io/created-for/pvc/namespace\": \"default\"\x7d"

/-- The Python value `json.loads` yields on `demoJsonText`. -/
def demoMeta : PyVal :=
  PyVal.obj [(pvKey, PyVal.str "pv-1"), (pvcKey, PyVal.str "claim-1"),
             (pvcNsKey, PyVal.str "default")]

/-- A concrete fragment of the `json` library for evaluation: it parses
`demoJsonText` to its actual Python parse, the literal `null` to `None`,
and fails on everything else (in particular on the empty string, exactly
as `json.loads` does on all three inputs). -/
def demoLib : JsonLib :=
  ⟨fun s => if s = demoJsonText then some demoMeta
            else if s = "null" then some PyVal.null
            else if s = "[]" then some (PyVal.arr [])
            else Option.none,
   rfl⟩

example : demoLib.loads demoJsonText = some demoMeta := rfl
example : demoLib.loads "null" = some PyVal.null := rfl

/-- One PENDING poll answer followed by a pending-or-terminal tail polls
once and then behaves as the tail does, with the success count bumped. -/
theorem wait_pending_cons {p : PollResponse} (hp : p.pending = true)
    (l : List PollResponse) :
    wait_for_operation (p :: l) =
      match wait_for_operation l with
      | WaitOutcome.success n => WaitOutcome.success (n + 1)
      | r => r := by
  cases p with
  | httpError st => simp [PollResponse.pending] at hp
  | opResult st err =>
    simp only [PollResponse.pending, bne_iff_ne, ne_eq] at hp
    simp [wait_for_operation, hp]

/-- A run of PENDING polls in front of a poll sequence that succeeds on
its first poll yields success counting every poll made. -/
theorem wait_after_pending {pre : List PollResponse}
    (hp : ∀ p ∈ pre, p.pending = true) (l : List PollResponse)
    (h1 : wait_for_operation l = WaitOutcome.success 1) :
    wait_for_operation (pre ++ l) = WaitOutcome.success (pre.length + 1) := by
  induction pre with
  | nil => simpa using h1
  | cons p ps ih =>
    rw [List.cons_append, wait_pending_cons (hp p (by simp))]
    rw [ih fun q hq => hp q (List.mem_cons_of_mem p hq)]
    simp

/-- A run of PENDING polls in front of a poll sequence with a
non-success outcome propagates that outcome unchanged. -/
theorem wait_after_pending_propagate {pre : List PollResponse}
    (hp : ∀ p ∈ pre, p.pending = true) (l : List PollResponse)
    (r : WaitOutcome) (hr : wait_for_operation l = r)
    (hnot : ∀ n, r ≠ WaitOutcome.success n) :
    wait_for_operation (pre ++ l) = r := by
  induction pre with
  | nil => simpa using hr
  | cons p ps ih =>
    rw [List.cons_append, wait_pending_cons (hp p (by simp))]
    rw [ih fun q hq => hp q (List.mem_cons_of_mem p hq)]
    match r, hnot with
    | WaitOutcome.failed e, _ => rfl
    | WaitOutcome.transport st, _ => rfl
    | WaitOutcome.ranOut, _ => rfl
    | WaitOutcome.success n, hnot => exact absurd rfl (hnot n)

/-- C8: the operation waiter polls until DONE: for n PENDING results
followed by an error-free DONE it returns success after exactly n+1
polls; a not-found (404) error on any poll returns success immediately;
a DONE carrying an error payload raises an error embedding that payload;
any other HTTP error raised while polling propagates upward uncaught. -/
theorem spec_C8 :
    (∀ (pre rest : List PollResponse), (∀ p ∈ pre, p.pending = true) →
      wait_for_operation (pre ++ PollResponse.opResult "DONE" Option.none :: rest)
        = WaitOutcome.success (pre.length + 1)) ∧
    (∀ (pre rest : List PollResponse), (∀ p ∈ pre, p.pending = true) →
      wait_for_operation (pre ++ PollResponse.httpError 404 :: rest)
        = WaitOutcome.success (pre.length + 1)) ∧
    (∀ (pre rest : List PollResponse) (e : String), (∀ p ∈ pre, p.pending = true) →
      wait_for_operation (pre ++ PollResponse.opResult "DONE" (some e) :: rest)
        = WaitOutcome.failed e) ∧
    (∀ (pre rest : List PollResponse) (st : Nat), st ≠ 404 →
      (∀ p ∈ pre, p.pending = true) →
      wait_for_operation (pre ++ PollResponse.httpError st :: rest)
        = WaitOutcome.transport st) := by
  refine ⟨?_, ?_, ?_, ?_⟩
  · intro pre rest hp
    exact wait_after_pending hp _ (by simp [wait_for_operation])
  · intro pre rest hp
    exact wait_after_pending hp _ (by simp [wait_for_operation])
  · intro pre rest e hp
    exact wait_after_pending_propagate hp _ _ (by simp [wait_for_operation])
      fun n h => WaitOutcome.noConfusion h
  · intro pre rest st hst hp
    exact wait_after_pending_propagate hp _ _ (by simp [wait_for_operation, hst])
      fun n h => WaitOutcome.noConfusion h

/-- Witness for C8 at concrete poll sequences: two PENDING polls then
DONE succeed in three polls; a lone 404 succeeds at once; DONE with an
error payload fails with it; a non-404 HTTP error propagates. -/
theorem spec_C8_witness :
    wait_for_operation [PollResponse.opResult "PENDING" Option.none,
      PollResponse.opResult "PENDING" Option.none,
      PollResponse.opResult "DONE" Option.none] = WaitOutcome.success 3 ∧
    wait_for_operation [PollResponse.httpError 404] = WaitOutcome.success 1 ∧
    wait_for_operation [PollResponse.opResult "DONE" (some "quotaExceeded")]
      = WaitOutcome.failed "quotaExceeded" ∧
    wait_for_operation [PollResponse.opResult "PENDING" Option.none,
      PollResponse.httpError 500] = WaitOutcome.transport 500 := by
  refine ⟨?_, ?_, ?_, ?_⟩
  · exact spec_C8.1 [PollResponse.opResult "PENDING" Option.none,
      PollResponse.opResult "PENDING" Option.none] [] (by decide)
  · exact spec_C8.2.1 [] [] (by decide)
  · exact spec_C8.2.2.1 [] [] "quotaExceeded" (by decide)
  · exact spec_C8.2.2.2 [PollResponse.opResult "PENDING" Option.none] [] 500
      (by decide) (by decide)

/-- Shape of a positive eligibility result: the name carries the managed
prefix, the description parsed as a dict whose three keys are truthy,
`_meta` was attached and no skip line was logged. -/
theorem enabled_ok_shape {lib : JsonLib} {disk d' : Disk} {ev : List Event}
    (h : is_snapshots_enabled lib disk = .ok (true, d', ev)) :
    ∃ kvs, pyStarts "gke-" disk.name = true ∧
      lib.loads (disk.description.getD "") = some (PyVal.obj kvs) ∧
      ((assocFind kvs pvKey).getD PyVal.null).truthy = true ∧
      ((assocFind kvs pvcKey).getD PyVal.null).truthy = true ∧
      ((assocFind kvs pvcNsKey).getD PyVal.null).truthy = true ∧
      d' = { disk with meta := some (PyVal.obj kvs) } ∧ ev = [] := by
  unfold is_snapshots_enabled at h
  split at h
  · simp at h
  · rename_i hpre
    split at h
    · simp at h
    · rename_i v hl
      split at h
      · rename_i kvs
        split at h
        · simp at h
        · split at h
          · simp at h
          · split at h
            · simp at h
            · rename_i h1 h2 h3
              simp only [Except.ok.injEq, Prod.mk.injEq] at h
              exact ⟨kvs, by simpa using hpre, hl, by simpa using h1,
                by simpa using h2, by simpa using h3, h.2.1.symm, h.2.2.symm⟩
      · simp at h

/-- Converse construction of a positive eligibility result from the
conditions of `enabled_ok_shape`. -/
theorem enabled_ok_build {lib : JsonLib} {disk : Disk} {kvs : List (String × PyVal)}
    (hpre : pyStarts "gke-" disk.name = true)
    (hl : lib.loads (disk.description.getD "") = some (PyVal.obj kvs))
    (h1 : ((assocFind kvs pvKey).getD PyVal.null).truthy = true)
    (h2 : ((assocFind kvs pvcKey).getD PyVal.null).truthy = true)
    (h3 : ((assocFind kvs pvcNsKey).getD PyVal.null).truthy = true) :
    is_snapshots_enabled lib disk
      = .ok (true, { disk with meta := some (PyVal.obj kvs) }, []) := by
  unfold is_snapshots_enabled
  rw [if_neg (by simp [hpre]), hl]
  simp [h1, h2, h3]

/-- A raised eligibility check is exactly an `AttributeError`, and it
happens exactly when the name check passed and the description parsed as
a JSON value that is not an object. -/
theorem enabled_error_iff (lib : JsonLib) (disk : Disk) :
    is_snapshots_enabled lib disk = .error PyErr.attributeError ↔
      (pyStarts "gke-" disk.name = true ∧
       ∃ v, lib.loads (disk.description.getD "") = some v ∧ v.isDict = false) := by
  constructor
  · intro h
    unfold is_snapshots_enabled at h
    split at h
    · simp at h
    · rename_i hpre
      refine ⟨by simpa using hpre, ?_⟩
      split at h
      · simp at h
      · rename_i v hl
        refine ⟨v, hl, ?_⟩
        split at h
        · split at h
          · simp at h
          · split at h
            · simp at h
            · split at h
              · simp at h
              · simp at h
        · rename_i hnotobj
          cases v with
          | obj kvs => exact absurd rfl (hnotobj kvs)
          | null => rfl
          | bool b => rfl
          | num n => rfl
          | str s => rfl
          | arr xs => rfl
  · rintro ⟨hpre, v, hl, hv⟩
    unfold is_snapshots_enabled
    rw [if_neg (by simp [hpre]), hl]
    cases v with
    | obj kvs => simp [PyVal.isDict] at hv
    | null => rfl
    | bool b => rfl
    | num n => rfl
    | str s => rfl
    | arr xs => rfl

/-- Eligibility never raises anything but `AttributeError`. -/
theorem enabled_error_attr {lib : JsonLib} {disk : Disk} {e : PyErr}
    (h : is_snapshots_enabled lib disk = .error e) : e = PyErr.attributeError := by
  unfold is_snapshots_enabled at h
  split at h
  · simp at h
  · split at h
    · simp at h
    · split at h
      · split at h
        · simp at h
        · split at h
          · simp at h
          · split at h
            · simp at h
            · simp at h
      · simp only [Except.error.injEq] at h
        exact h.symm

/-- C3: a disk is eligible iff its name starts with the managed `gke-`
prefix, its description parses as a JSON object and the parsed payload
holds non-empty persistent-volume name, claim name and claim namespace;
the rules run in that order and the first failing rule returns false
with its skip line (rule two failing meaning the description does not
parse as JSON at all; a description parsing to a non-object value is the
raising case settled under C4). -/
theorem spec_C3 (lib : JsonLib) (disk : Disk) :
    ((∃ d' ev, is_snapshots_enabled lib disk = .ok (true, d', ev)) ↔
      (pyStarts "gke-" disk.name = true ∧
       ∃ kvs, lib.loads (disk.description.getD "") = some (PyVal.obj kvs) ∧
         ((assocFind kvs pvKey).getD PyVal.null).truthy = true ∧
         ((assocFind kvs pvcKey).getD PyVal.null).truthy = true ∧
         ((assocFind kvs pvcNsKey).getD PyVal.null).truthy = true)) ∧
    (pyStarts "gke-" disk.name = false →
      is_snapshots_enabled lib disk
        = .ok (false, disk, [Event.skipUnmanaged disk.name])) ∧
    (pyStarts "gke-" disk.name = true →
      lib.loads (disk.description.getD "") = Option.none →
      is_snapshots_enabled lib disk
        = .ok (false, disk, [Event.skipBadJson disk.name])) ∧
    (∀ kvs, pyStarts "gke-" disk.name = true →
      lib.loads (disk.description.getD "") = some (PyVal.obj kvs) →
      ((assocFind kvs pvKey).getD PyVal.null).truthy = false →
      is_snapshots_enabled lib disk = .ok (false,
        { disk with meta := some (PyVal.obj kvs) }, [Event.skipNoPV disk.name])) ∧
    (∀ kvs, pyStarts "gke-" disk.name = true →
      lib.loads (disk.description.getD "") = some (PyVal.obj kvs) →
      ((assocFind kvs pvKey).getD PyVal.null).truthy = true →
      ((assocFind kvs pvcKey).getD PyVal.null).truthy = false →
      is_snapshots_enabled lib disk = .ok (false,
        { disk with meta := some (PyVal.obj kvs) }, [Event.skipNoPVC disk.name])) ∧
    (∀ kvs, pyStarts "gke-" disk.name = true →
      lib.loads (disk.description.getD "") = some (PyVal.obj kvs) →
      ((assocFind kvs pvKey).getD PyVal.null).truthy = true →
      ((assocFind kvs pvcKey).getD PyVal.null).truthy = true →
      ((assocFind kvs pvcNsKey).getD PyVal.null).truthy = false →
      is_snapshots_enabled lib disk = .ok (false,
        { disk with meta := some (PyVal.obj kvs) },
        [Event.skipNoNamespace disk.name])) := by
  refine ⟨⟨?_, ?_⟩, ?_, ?_, ?_, ?_, ?_⟩
  · rintro ⟨d', ev, h⟩
    obtain ⟨kvs, hpre, hl, h1, h2, h3, _, _⟩ := enabled_ok_shape h
    exact ⟨hpre, kvs, hl, h1, h2, h3⟩
  · rintro ⟨hpre, kvs, hl, h1, h2, h3⟩
    exact ⟨_, _, enabled_ok_build hpre hl h1 h2 h3⟩
  · intro hpre
    unfold is_snapshots_enabled
    rw [if_pos hpre]
  · intro hpre hl
    unfold is_snapshots_enabled
    rw [if_neg (by simp [hpre]), hl]
  · intro kvs hpre hl h1
    unfold is_snapshots_enabled
    rw [if_neg (by simp [hpre]), hl]
    simp [h1]
  · intro kvs hpre hl h1 h2
    unfold is_snapshots_enabled
    rw [if_neg (by simp [hpre]), hl]
    simp [h1, h2]
  · intro kvs hpre hl h1 h2 h3
    unfold is_snapshots_enabled
    rw [if_neg (by simp [hpre]), hl]
    simp [h1, h2, h3]

/-- Witness for C3 at concrete disks: a disk without the prefix is
skipped on rule one, a disk with an unparsable description on rule two,
and the demo disk is eligible. -/
theorem spec_C3_witness :
    is_snapshots_enabled demoLib ⟨"pd-plain", some demoJsonText, Option.none⟩
      = .ok (false, ⟨"pd-plain", some demoJsonText, Option.none⟩,
             [Event.skipUnmanaged "pd-plain"]) ∧
    is_snapshots_enabled demoLib ⟨"gke-bad", some "not json", Option.none⟩
      = .ok (false, ⟨"gke-bad", some "not json", Option.none⟩,
             [Event.skipBadJson "gke-bad"]) ∧
    (∃ d' ev, is_snapshots_enabled demoLib ⟨"gke-pvc-1", some demoJsonText, Option.none⟩
      = .ok (true, d', ev)) := by
  refine ⟨?_, ?_, ?_⟩
  · exact (spec_C3 demoLib _).2.1 (by decide)
  · exact (spec_C3 demoLib _).2.2.1 (by decide) rfl
  · exact (spec_C3 demoLib _).1.mpr ⟨by decide,
      [(pvKey, PyVal.str "pv-1"), (pvcKey, PyVal.str "claim-1"),
       (pvcNsKey, PyVal.str "default")], rfl, by decide, by decide, by decide⟩

/-- Counterexample to C4 as stated: a disk whose description is the
valid JSON text `null` (which parses to a value that is not an object)
makes the eligibility filter raise an `AttributeError` on the `.get`
attribute access instead of returning false. -/
theorem spec_C4_cex :
    is_snapshots_enabled demoLib ⟨"gke-pvc-1", some "null", Option.none⟩
      = .error PyErr.attributeError := rfl

/-- C4 (amended): the eligibility filter returns false without raising
when the description is absent or is not valid JSON; but when the
description parses as a JSON value that is not an object, the filter
raises an uncaught `AttributeError` -- and that is its only raising
path. -/
theorem spec_C4 (lib : JsonLib) (disk : Disk) :
    (is_snapshots_enabled lib disk = .error PyErr.attributeError ↔
      (pyStarts "gke-" disk.name = true ∧
       ∃ v, lib.loads (disk.description.getD "") = some v ∧ v.isDict = false)) ∧
    (∀ e, is_snapshots_enabled lib disk = .error e → e = PyErr.attributeError) :=
  ⟨enabled_error_iff lib disk, fun _ h => enabled_error_attr h⟩

/-- Witness for C4's amended statement: a description parsing to the
empty JSON array makes the filter raise `AttributeError`. -/
theorem spec_C4_witness :
    is_snapshots_enabled demoLib ⟨"gke-pvc-2", some "[]", Option.none⟩
      = .error PyErr.attributeError :=
  (spec_C4 demoLib ⟨"gke-pvc-2", some "[]", Option.none⟩).1.mpr
    ⟨by decide, PyVal.arr [], rfl, rfl⟩

/-- An eligible disk carries a description string (parsing the empty
default would have failed) and its attached metadata holds the
persistent-volume name. -/
theorem enabled_fields {lib : JsonLib} {disk d' : Disk} {ev : List Event}
    (h : is_snapshots_enabled lib disk = .ok (true, d', ev)) :
    ∃ kvs v s, d' = { disk with meta := some (PyVal.obj kvs) } ∧
      assocFind kvs pvKey = some v ∧ disk.description = some s := by
  obtain ⟨kvs, hpre, hl, h1, _, _, hd', _⟩ := enabled_ok_shape h
  cases hv : assocFind kvs pvKey with
  | none =>
    rw [hv] at h1
    simp [PyVal.truthy] at h1
  | some v =>
    cases hdesc : disk.description with
    | none =>
      rw [hdesc] at hl
      simp only [Option.getD] at hl
      rw [lib.loads_empty] at hl
      cases hl
    | some s => exact ⟨kvs, v, s, by rw [hdesc] at hd'; exact hd', hv, rfl⟩

/-- C10: for a disk that passed the eligibility filter, snapshot name
and description generation cannot fail: the disk has a description entry
and attached metadata containing the persistent-volume name, so
`generate_snapshot_name` and `generate_snapshot_description` both
return values. -/
theorem spec_C10 (cfg : Snapshooter) (lib : JsonLib) {disk d' : Disk}
    {ev : List Event} (now : PyDateTime)
    (h : is_snapshots_enabled lib disk = .ok (true, d', ev)) :
    (∃ s, generate_snapshot_name d' now = .ok s) ∧
    (∃ s, generate_snapshot_description cfg d' = .ok s) := by
  obtain ⟨kvs, v, s, hd', hv, hs⟩ := enabled_fields h
  subst hd'
  constructor
  · refine ⟨pyStr v ++ "--" ++ String.mk (tsChars now), ?_⟩
    simp [generate_snapshot_name, hv]
  · refine ⟨cfg.marker ++ s, ?_⟩
    simp [generate_snapshot_description, hs]

/-- Witness for C10 at the demo disk, whose eligibility result is
computed by evaluation. -/
theorem spec_C10_witness :
    (∃ s, generate_snapshot_name
      ⟨"gke-pvc-1", some demoJsonText, some demoMeta⟩ ⟨2018, 3, 9, 17, 5, 41⟩ = .ok s) ∧
    (∃ s, generate_snapshot_description (Snapshooter.build "p" "z" false false)
      ⟨"gke-pvc-1", some demoJsonText, some demoMeta⟩ = .ok s) :=
  @spec_C10 (Snapshooter.build "p" "z" false false) demoLib
    ⟨"gke-pvc-1", some demoJsonText, Option.none⟩
    ⟨"gke-pvc-1", some demoJsonText, some demoMeta⟩ []
    ⟨2018, 3, 9, 17, 5, 41⟩ (by rfl)

/-- The freshness check returns true exactly when some snapshot of the
disk -- owned or not -- is within `min_age - bias` of now. -/
theorem recent_iff (cfg : Snapshooter) (cloud : Cloud) (disk : Disk)
    (now : PyDateTime) :
    (is_recent_snapshot_exists cfg cloud disk now).1 = true ↔
      ∃ s ∈ cloud.snapshots, s.sourceDisk = diskUri cfg disk ∧
        now.toSec - s.creationTimestamp ≤ cfg.min_age - cfg.bias := by
  unfold is_recent_snapshot_exists
  rcases hf : List.find? (isFresh cfg now.toSec) (get_snapshots cfg cloud disk false)
    with _ | s
  · constructor
    · intro h; simp at h
    · rintro ⟨s, hs, hsd, hage⟩
      rw [List.find?_eq_none] at hf
      refine absurd ?_ (hf s ?_)
      · simpa [isFresh] using hage
      · simp [get_snapshots, List.mem_filter, hs, hsd]
  · constructor
    · intro _
      have hmem := List.mem_of_find?_eq_some hf
      have hpred := List.find?_some hf
      simp only [get_snapshots, List.mem_filter, Bool.and_eq_true, beq_iff_eq] at hmem
      exact ⟨s, hmem.1, hmem.2.1, by simpa [isFresh] using hpred⟩
    · intro _; simp

/-- The demo configuration: `Snapshooter('proj', 'zone-a')`, synchronous
and not dry-run, with the class attribute ages. -/
def demoCfg : Snapshooter := Snapshooter.build "proj" "zone-a" false false

/-- The demo eligible disk. -/
def demoDisk : Disk := ⟨"gke-pvc-1", some demoJsonText, Option.none⟩

/-- The demo current instant, 2018-03-10 00:00:00 UTC. -/
def demoNow : PyDateTime := ⟨2018, 3, 10, 0, 0, 0⟩

/-- A snapshot of the demo disk created at `now - min_age + 1 minute`
(one minute younger than `min_age`, but older than `min_age - bias`). -/
def demoSnapAlmost : Snapshot :=
  ⟨"pv-1--2018-03-09--00-01-00", "[auto] snap", demoNow.toSec - 86340,
   diskUri demoCfg demoDisk⟩

/-- The demo cloud holding only that nearly-min-age snapshot. -/
def demoCloudAlmost : Cloud := ⟨[demoDisk], [demoSnapAlmost]⟩

/-- Counterexample to C2 as stated: with the code's fixed one-hour bias,
a disk whose only snapshot was created at `now - minAge + 1 minute` is
NOT considered fresh (its age exceeds `minAge - bias`) and a create call
IS issued for it. -/
theorem spec_C2_cex :
    (is_recent_snapshot_exists demoCfg demoCloudAlmost demoDisk demoNow).1 = false ∧
    ∃ c a, handle_disk demoCfg demoLib demoCloudAlmost demoDisk demoNow = .ok (c, a) ∧
      a.creates.length = 1 := by
  exact ⟨rfl, _, _, rfl, rfl⟩

/-- C2 (amended): the freshness check returns true iff at least one
snapshot of the disk -- owned or not -- satisfies
`now - creationTimestamp <= minAge - bias`; but with the code's fixed
one-hour bias a disk whose only snapshot was created at
`now - minAge + 1 minute` fails the check and a create call is
issued. -/
theorem spec_C2 :
    (∀ (cfg : Snapshooter) (cloud : Cloud) (disk : Disk) (now : PyDateTime),
      (is_recent_snapshot_exists cfg cloud disk now).1 = true ↔
        ∃ s ∈ cloud.snapshots, s.sourceDisk = diskUri cfg disk ∧
          now.toSec - s.creationTimestamp ≤ cfg.min_age - cfg.bias) ∧
    ((is_recent_snapshot_exists demoCfg demoCloudAlmost demoDisk demoNow).1 = false ∧
      ∃ c a, handle_disk demoCfg demoLib demoCloudAlmost demoDisk demoNow = .ok (c, a) ∧
        a.creates.length = 1) :=
  ⟨recent_iff, rfl, _, _, rfl, rfl⟩

/-- Appending to a marked string keeps the marker in front: the
generated description `marker ++ original` matches the ownership
filter. -/
theorem pyStarts_self_append (p s : String) : pyStarts p (p ++ s) = true := by
  unfold pyStarts
  rw [String.data_append]
  exact List.isPrefixOf_iff_prefix.mpr (List.prefix_append _ _)

/-- Every digit character is one of the ten digit literals. -/
theorem digitChar_cases (n : Nat) :
    digitChar n = '0' ∨ digitChar n = '1' ∨ digitChar n = '2' ∨ digitChar n = '3'
      ∨ digitChar n = '4' ∨ digitChar n = '5' ∨ digitChar n = '6'
      ∨ digitChar n = '7' ∨ digitChar n = '8' ∨ digitChar n = '9' := by
  unfold digitChar
  split
  · exact Or.inl rfl
  · exact Or.inr (Or.inl rfl)
  · exact Or.inr (Or.inr (Or.inl rfl))
  · exact Or.inr (Or.inr (Or.inr (Or.inl rfl)))
  · exact Or.inr (Or.inr (Or.inr (Or.inr (Or.inl rfl))))
  · exact Or.inr (Or.inr (Or.inr (Or.inr (Or.inr (Or.inl rfl)))))
  · exact Or.inr (Or.inr (Or.inr (Or.inr (Or.inr (Or.inr (Or.inl rfl))))))
  · exact Or.inr (Or.inr (Or.inr (Or.inr (Or.inr (Or.inr (Or.inr (Or.inl rfl)))))))
  · exact Or.inr (Or.inr (Or.inr (Or.inr (Or.inr (Or.inr (Or.inr (Or.inr (Or.inl rfl))))))))
  · exact Or.inr (Or.inr (Or.inr (Or.inr (Or.inr (Or.inr (Or.inr (Or.inr (Or.inr rfl))))))))

/-- Characters of the digit rendering are digit literals. -/
theorem mem_natDigitsAux {c : Char} :
    ∀ (fuel n : Nat), c ∈ natDigitsAux fuel n → ∃ d, c = digitChar d := by
  intro fuel
  induction fuel with
  | zero => intro n h; simp [natDigitsAux] at h
  | succ fuel ih =>
    intro n h
    unfold natDigitsAux at h
    split at h
    · simp at h; exact ⟨n, h⟩
    · rcases List.mem_append.mp h with h | h
      · exact ih _ h
      · simp at h; exact ⟨n % 10, h⟩

/-- Characters of a zero-padded number are `'0'` or digit literals. -/
theorem mem_padNum {c : Char} {w n : Nat} (h : c ∈ padNum w n) :
    c = '0' ∨ ∃ d, c = digitChar d := by
  unfold padNum at h
  rcases List.mem_append.mp h with h | h
  · exact Or.inl (List.eq_of_mem_replicate h)
  · exact Or.inr (mem_natDigitsAux _ _ h)

/-- Padded digit renderings contain neither a colon nor the letter T. -/
theorem padNum_no_colon_t {c : Char} {w n : Nat} (h : c ∈ padNum w n) :
    c ≠ ':' ∧ c ≠ 'T' := by
  rcases mem_padNum h with h0 | ⟨d, hd⟩
  · subst h0; exact ⟨by decide, by decide⟩
  · subst hd
    rcases digitChar_cases d with h | h | h | h | h | h | h | h | h | h <;>
      rw [h] <;> exact ⟨by decide, by decide⟩

/-- `pyReplace1` distributes over list append. -/
theorem pyReplace1_append (old : Char) (new : List Char) (a b : List Char) :
    pyReplace1 old new (a ++ b) = pyReplace1 old new a ++ pyReplace1 old new b := by
  induction a with
  | nil => simp [pyReplace1]
  | cons c cs ih => simp [pyReplace1, ih]

/-- `pyReplace1` is the identity on lists avoiding the pattern. -/
theorem pyReplace1_of_not_mem {old : Char} (new : List Char) {l : List Char}
    (h : ∀ c ∈ l, c ≠ old) : pyReplace1 old new l = l := by
  induction l with
  | nil => rfl
  | cons c cs ih =>
    unfold pyReplace1
    rw [if_neg (h c (by simp)), ih fun x hx => h x (List.mem_cons_of_mem c hx)]
    rfl

/-- Characters produced by `pyReplace1` are replacement characters or
kept characters of the input. -/
theorem mem_pyReplace1 {old : Char} {new l : List Char} {c : Char}
    (h : c ∈ pyReplace1 old new l) : c ∈ new ∨ (c ∈ l ∧ c ≠ old) := by
  induction l with
  | nil => simp [pyReplace1] at h
  | cons x xs ih =>
    unfold pyReplace1 at h
    rcases List.mem_append.mp h with h | h
    · split at h
      · exact Or.inl h
      · rename_i hne
        simp at h
        subst h
        exact Or.inr ⟨by simp, hne⟩
    · rcases ih h with h | ⟨hm, hne⟩
      · exact Or.inl h
      · exact Or.inr ⟨List.mem_cons_of_mem x hm, hne⟩

/-- The source timestamp chain (`isoformat` then the two `replace`
calls) produces exactly the spec's timestamp format. -/
theorem tsChars_eq_spec (t : PyDateTime) : String.mk (tsChars t) = specTimestamp t := by
  have hp : ∀ (w n : Nat) (old : Char) (new : List Char), old = ':' ∨ old = 'T' →
      pyReplace1 old new (padNum w n) = padNum w n := by
    intro w n old new hor
    refine pyReplace1_of_not_mem new fun c hc => ?_
    rcases hor with h | h
    · rw [h]; exact (padNum_no_colon_t hc).1
    · rw [h]; exact (padNum_no_colon_t hc).2
  have e1 : pyReplace1 ':' ['-'] ['-'] = ['-'] := rfl
  have e2 : pyReplace1 ':' ['-'] ['T'] = ['T'] := rfl
  have e3 : pyReplace1 ':' ['-'] [':'] = ['-'] := rfl
  have e4 : pyReplace1 'T' ['-', '-'] ['-'] = ['-'] := rfl
  have e5 : pyReplace1 'T' ['-', '-'] ['T'] = ['-', '-'] := rfl
  have hmk : ∀ (a b : List Char), String.mk a ++ String.mk b = String.mk (a ++ b) :=
    fun a b => rfl
  unfold tsChars isoChars specTimestamp
  rw [show ("-" : String) = String.mk ['-'] from rfl,
      show ("--" : String) = String.mk ['-', '-'] from rfl]
  simp only [pyReplace1_append, hp _ _ _ _ (Or.inl rfl), hp _ _ _ _ (Or.inr rfl),
    e1, e2, e3, e4, e5, hmk, List.append_assoc]

/-- The generated timestamp contains no colon. -/
theorem tsChars_no_colon {c : Char} {t : PyDateTime} (h : c ∈ tsChars t) : c ≠ ':' := by
  unfold tsChars at h
  rcases mem_pyReplace1 h with h | ⟨h, _⟩
  · simp at h; subst h; decide
  · rcases mem_pyReplace1 h with h | ⟨_, hne⟩
    · simp at h; subst h; decide
    · exact hne

/-- Membership in the owned-snapshot fetch. -/
theorem mem_get_snapshots_ours {cfg : Snapshooter} {cloud : Cloud} {disk : Disk}
    {s : Snapshot} :
    s ∈ get_snapshots cfg cloud disk true ↔
      s ∈ cloud.snapshots ∧ s.sourceDisk = diskUri cfg disk ∧
        pyStarts cfg.marker s.description = true := by
  simp [get_snapshots, List.mem_filter, and_assoc]

/-- Membership in the all-snapshots fetch. -/
theorem mem_get_snapshots_all {cfg : Snapshooter} {cloud : Cloud} {disk : Disk}
    {s : Snapshot} :
    s ∈ get_snapshots cfg cloud disk false ↔
      s ∈ cloud.snapshots ∧ s.sourceDisk = diskUri cfg disk := by
  simp [get_snapshots, List.mem_filter]

/-- Full characterisation of a normal-mode (not dry-run) delete loop
over a fetched list: it deletes exactly the names of the obsolete
snapshots of the list, in order, removing them from the cloud. -/
theorem delete_loop_normal {cfg : Snapshooter} (hdry : cfg.dry_run = false)
    (nowSec : Int) (cloud : Cloud) (l : List Snapshot) :
    delete_loop cfg nowSec cloud l =
      (⟨cloud.disks, cloud.snapshots.filter fun s =>
          !((l.filter (isObsolete cfg nowSec)).map Snapshot.name).contains s.name⟩,
       ⟨[], (l.filter (isObsolete cfg nowSec)).map Snapshot.name,
        ((l.filter (isObsolete cfg nowSec)).map Snapshot.name).map (fun n => "delete-" ++ n),
        if cfg.is_async then []
        else ((l.filter (isObsolete cfg nowSec)).map Snapshot.name).map (fun n => "delete-" ++ n),
        ((l.filter (isObsolete cfg nowSec)).map Snapshot.name).map Event.deleting⟩) := by
  induction l generalizing cloud with
  | nil =>
    simp only [delete_loop, List.filter_nil, List.map_nil, ite_self]
    rw [show (fun s : Snapshot => !(List.contains [] s.name)) = fun _ => true from rfl]
    simp [Act.nil]
  | cons s rest ih =>
    unfold delete_loop
    by_cases hobs : isObsolete cfg nowSec s = true
    · rw [if_pos hobs]
      have hstep : delete_snapshot cfg cloud s =
          (⟨cloud.disks, cloud.snapshots.filter fun t => t.name ≠ s.name⟩,
           ⟨[], [s.name], ["delete-" ++ s.name],
            if cfg.is_async then [] else ["delete-" ++ s.name],
            [Event.deleting s.name]⟩) := by
        unfold delete_snapshot
        rw [if_neg (by simp [hdry])]
      simp only [hstep, ih]
      rw [List.filter_cons_of_pos hobs]
      refine Prod.ext ?_ ?_
      · show Cloud.mk cloud.disks _ = Cloud.mk cloud.disks _
        refine congrArg (Cloud.mk cloud.disks) ?_
        rw [List.filter_filter]
        refine List.filter_congr fun t _ => ?_
        simp only [List.map_cons, List.contains_cons, Bool.not_or, decide_not]
        rw [Bool.and_comm]
        rfl
      · show Act.app _ _ = _
        cases hasync : cfg.is_async <;>
          simp [Act.app, hasync, List.singleton_append]
    · rw [if_neg hobs]
      rw [ih]
      rw [List.filter_cons_of_neg hobs]

/-- A dry-run delete loop only logs the intended deletions. -/
theorem delete_loop_dry {cfg : Snapshooter} (hdry : cfg.dry_run = true)
    (nowSec : Int) (cloud : Cloud) (l : List Snapshot) :
    delete_loop cfg nowSec cloud l =
      (cloud, ⟨[], [], [], [],
        ((l.filter (isObsolete cfg nowSec)).map Snapshot.name).map Event.deleting⟩) := by
  induction l generalizing cloud with
  | nil => simp [delete_loop, Act.nil]
  | cons s rest ih =>
    unfold delete_loop
    by_cases hobs : isObsolete cfg nowSec s = true
    · rw [if_pos hobs]
      have hstep : delete_snapshot cfg cloud s =
          (cloud, ⟨[], [], [], [], [Event.deleting s.name]⟩) := by
        unfold delete_snapshot
        rw [if_pos hdry]
      simp only [hstep, ih]
      rw [List.filter_cons_of_pos hobs]
      simp [Act.app]
    · rw [if_neg hobs, ih, List.filter_cons_of_neg hobs]

/-- Normal-mode `make_snapshot` on a disk whose generators succeed. -/
theorem make_snapshot_normal {cfg : Snapshooter} (hdry : cfg.dry_run = false)
    {disk : Disk} {now : PyDateTime} {name descr : String}
    (hn : generate_snapshot_name disk now = .ok name)
    (hd : generate_snapshot_description cfg disk = .ok descr) (cloud : Cloud) :
    make_snapshot cfg cloud disk now = .ok
      (⟨cloud.disks, cloud.snapshots ++ [⟨name, descr, now.toSec, diskUri cfg disk⟩]⟩,
       ⟨[(name, descr)], [], ["create-" ++ name],
        if cfg.is_async then [] else ["create-" ++ name],
        [Event.creating name disk.name]⟩) := by
  simp only [make_snapshot, hn, hd]
  rw [if_neg (by simp [hdry])]

/-- Dry-run `make_snapshot` only logs the intended creation. -/
theorem make_snapshot_dry {cfg : Snapshooter} (hdry : cfg.dry_run = true)
    {disk : Disk} {now : PyDateTime} {name descr : String}
    (hn : generate_snapshot_name disk now = .ok name)
    (hd : generate_snapshot_description cfg disk = .ok descr) (cloud : Cloud) :
    make_snapshot cfg cloud disk now = .ok
      (cloud, ⟨[], [], [], [], [Event.creating name disk.name]⟩) := by
  simp only [make_snapshot, hn, hd]
  rw [if_pos hdry]

/-- Names of the owned snapshots of a disk that are past the retention
window at the given instant, in fetch order. -/
def ownedObsoleteNames (cfg : Snapshooter) (cloud : Cloud) (disk : Disk)
    (nowSec : Int) : List String :=
  ((get_snapshots cfg cloud disk true).filter (isObsolete cfg nowSec)).map Snapshot.name

/-- Handling an ineligible disk changes nothing and only logs. -/
theorem handle_disk_skip {cfg : Snapshooter} {lib : JsonLib} {cloud : Cloud}
    {disk d' : Disk} {ev : List Event} {now : PyDateTime}
    (he : is_snapshots_enabled lib disk = .ok (false, d', ev)) :
    handle_disk cfg lib cloud disk now
      = .ok (cloud, ⟨[], [], [], [], [Event.checking disk.name] ++ ev⟩) := by
  simp only [handle_disk, he]
  rfl

/-- A raising eligibility check makes the whole disk handling raise. -/
theorem handle_disk_error {cfg : Snapshooter} {lib : JsonLib} {cloud : Cloud}
    {disk : Disk} {e : PyErr} {now : PyDateTime}
    (he : is_snapshots_enabled lib disk = .error e) :
    handle_disk cfg lib cloud disk now = .error e := by
  simp only [handle_disk, he]

/-- Normal-mode handling of an eligible disk that has a fresh snapshot:
no create call, and exactly the owned obsolete snapshots are deleted. -/
theorem handle_disk_fresh_normal {cfg : Snapshooter} {lib : JsonLib}
    {cloud : Cloud} {disk d' : Disk} {ev ev2 : List Event} {now : PyDateTime}
    (hdry : cfg.dry_run = false)
    (he : is_snapshots_enabled lib disk = .ok (true, d', ev))
    (hrec : is_recent_snapshot_exists cfg cloud d' now = (true, ev2)) :
    handle_disk cfg lib cloud disk now = .ok
      (⟨cloud.disks, cloud.snapshots.filter fun s =>
          !(ownedObsoleteNames cfg cloud d' now.toSec).contains s.name⟩,
       ⟨[], ownedObsoleteNames cfg cloud d' now.toSec,
        (ownedObsoleteNames cfg cloud d' now.toSec).map (fun n => "delete-" ++ n),
        if cfg.is_async then []
        else (ownedObsoleteNames cfg cloud d' now.toSec).map (fun n => "delete-" ++ n),
        [Event.checking disk.name] ++ ev2
          ++ (ownedObsoleteNames cfg cloud d' now.toSec).map Event.deleting⟩) := by
  obtain ⟨kvs, _, _, _, _, _, _, hev⟩ := enabled_ok_shape he
  subst hev
  simp only [handle_disk, he, hrec]
  rw [if_neg (show ¬(true = false) by decide)]
  simp only [if_true, ite_true]
  simp only [delete_obsolete_snapshots, delete_loop_normal hdry]
  simp [Act.app, Act.nil, ownedObsoleteNames]

/-- Normal-mode handling of an eligible disk without a fresh snapshot:
one create call with the generated name and prefixed description, then
deletion of exactly the owned obsolete snapshots as re-fetched after the
create. -/
theorem handle_disk_stale_normal {cfg : Snapshooter} {lib : JsonLib}
    {cloud : Cloud} {disk d' : Disk} {ev : List Event} {now : PyDateTime}
    (hdry : cfg.dry_run = false)
    (he : is_snapshots_enabled lib disk = .ok (true, d', ev))
    (hrec : is_recent_snapshot_exists cfg cloud d' now = (false, [])) :
    ∃ kvs v s, d'.meta = some (PyVal.obj kvs) ∧ assocFind kvs pvKey = some v ∧
      disk.description = some s ∧
      (let nm := pyStr v ++ "--" ++ String.mk (tsChars now)
       let dsc := cfg.marker ++ s
       let cloud1 : Cloud :=
         ⟨cloud.disks, cloud.snapshots ++ [⟨nm, dsc, now.toSec, diskUri cfg d'⟩]⟩
       let del := ownedObsoleteNames cfg cloud1 d' now.toSec
       handle_disk cfg lib cloud disk now = .ok
         (⟨cloud.disks, cloud1.snapshots.filter fun t => !del.contains t.name⟩,
          ⟨[(nm, dsc)], del,
           ("create-" ++ nm) :: del.map (fun n => "delete-" ++ n),
           if cfg.is_async then []
           else ("create-" ++ nm) :: del.map (fun n => "delete-" ++ n),
           [Event.checking disk.name, Event.creating nm disk.name]
             ++ del.map Event.deleting⟩)) := by
  obtain ⟨kvs0, _, _, _, _, _, hd', hev⟩ := enabled_ok_shape he
  subst hev
  obtain ⟨kvs, v, s, hd2, hv, hs⟩ := enabled_fields he
  have hmeta : d'.meta = some (PyVal.obj kvs) := by rw [hd2]
  have hdesc : d'.description = some s := by rw [hd2]; exact hs
  refine ⟨kvs, v, s, hmeta, hv, hs, ?_⟩
  have hname : generate_snapshot_name d' now
      = .ok (pyStr v ++ "--" ++ String.mk (tsChars now)) := by
    simp only [generate_snapshot_name, hmeta, hv]
  have hdescr : generate_snapshot_description cfg d' = .ok (cfg.marker ++ s) := by
    simp only [generate_snapshot_description, hdesc]
  simp only [handle_disk, he, hrec]
  rw [if_neg (show ¬(true = false) by decide), if_neg (show ¬(false = true) by decide)]
  simp only [make_snapshot_normal hdry hname hdescr cloud]
  simp only [delete_obsolete_snapshots, delete_loop_normal hdry]
  cases hasync : cfg.is_async <;>
    simp [Act.app, Act.nil, ownedObsoleteNames, hasync, hd2]

/-- Dry-run handling of an eligible disk that has a fresh snapshot:
nothing is issued, only the decision lines are logged. -/
theorem handle_disk_fresh_dry {cfg : Snapshooter} {lib : JsonLib}
    {cloud : Cloud} {disk d' : Disk} {ev ev2 : List Event} {now : PyDateTime}
    (hdry : cfg.dry_run = true)
    (he : is_snapshots_enabled lib disk = .ok (true, d', ev))
    (hrec : is_recent_snapshot_exists cfg cloud d' now = (true, ev2)) :
    handle_disk cfg lib cloud disk now = .ok
      (cloud, ⟨[], [], [], [],
        [Event.checking disk.name] ++ ev2
          ++ (ownedObsoleteNames cfg cloud d' now.toSec).map Event.deleting⟩) := by
  obtain ⟨kvs, _, _, _, _, _, _, hev⟩ := enabled_ok_shape he
  subst hev
  simp only [handle_disk, he, hrec]
  rw [if_neg (show ¬(true = false) by decide)]
  simp only [if_true, ite_true]
  simp only [delete_obsolete_snapshots, delete_loop_dry hdry]
  simp [Act.app, Act.nil, ownedObsoleteNames]

/-- Dry-run handling of an eligible disk without a fresh snapshot: the
intended create and the intended deletions (evaluated against the
unchanged cloud) are logged, and nothing is issued. -/
theorem handle_disk_stale_dry {cfg : Snapshooter} {lib : JsonLib}
    {cloud : Cloud} {disk d' : Disk} {ev : List Event} {now : PyDateTime}
    (hdry : cfg.dry_run = true)
    (he : is_snapshots_enabled lib disk = .ok (true, d', ev))
    (hrec : is_recent_snapshot_exists cfg cloud d' now = (false, [])) :
    ∃ kvs v s, d'.meta = some (PyVal.obj kvs) ∧ assocFind kvs pvKey = some v ∧
      disk.description = some s ∧
      handle_disk cfg lib cloud disk now = .ok
        (cloud, ⟨[], [], [], [],
          [Event.checking disk.name,
           Event.creating (pyStr v ++ "--" ++ String.mk (tsChars now)) disk.name]
            ++ (ownedObsoleteNames cfg cloud d' now.toSec).map Event.deleting⟩) := by
  obtain ⟨kvs0, _, _, _, _, _, hd', hev⟩ := enabled_ok_shape he
  subst hev
  obtain ⟨kvs, v, s, hd2, hv, hs⟩ := enabled_fields he
  have hmeta : d'.meta = some (PyVal.obj kvs) := by rw [hd2]
  have hdesc : d'.description = some s := by rw [hd2]; exact hs
  refine ⟨kvs, v, s, hmeta, hv, hs, ?_⟩
  have hname : generate_snapshot_name d' now
      = .ok (pyStr v ++ "--" ++ String.mk (tsChars now)) := by
    simp only [generate_snapshot_name, hmeta, hv]
  have hdescr : generate_snapshot_description cfg d' = .ok (cfg.marker ++ s) := by
    simp only [generate_snapshot_description, hdesc]
  simp only [handle_disk, he, hrec]
  rw [if_neg (show ¬(true = false) by decide), if_neg (show ¬(false = true) by decide)]
  simp only [make_snapshot_dry hdry hname hdescr cloud]
  simp only [delete_obsolete_snapshots, delete_loop_dry hdry]
  simp [Act.app, Act.nil, ownedObsoleteNames, hd2]

/-- A negative freshness result logs nothing. -/
theorem recent_false_pair {cfg : Snapshooter} {cloud : Cloud} {disk : Disk}
    {now : PyDateTime}
    (h : (is_recent_snapshot_exists cfg cloud disk now).1 = false) :
    is_recent_snapshot_exists cfg cloud disk now = (false, []) := by
  unfold is_recent_snapshot_exists at h ⊢
  split at h
  · simp at h
  · rfl

/-- The owned obsolete names are the names of exactly the snapshots of
the disk that carry the marker and are past the retention window. -/
theorem ownedObsoleteNames_eq (cfg : Snapshooter) (cloud : Cloud) (disk : Disk)
    (nowSec : Int) :
    ownedObsoleteNames cfg cloud disk nowSec =
      (cloud.snapshots.filter fun s =>
        s.sourceDisk == diskUri cfg disk && pyStarts cfg.marker s.description
          && isObsolete cfg nowSec s).map Snapshot.name := by
  unfold ownedObsoleteNames get_snapshots
  rw [List.filter_filter]
  congr 1
  refine List.filter_congr fun s _ => ?_
  cases h1 : s.sourceDisk == diskUri cfg disk <;>
    cases h2 : pyStarts cfg.marker s.description <;>
      cases h3 : isObsolete cfg nowSec s <;> simp [h1, h2, h3]

/-- The fetches of an eligible disk coincide with the fetches of its
original record: attaching `_meta` does not change the name. -/
theorem get_snapshots_meta {cfg : Snapshooter} {cloud : Cloud} {disk d' : Disk}
    (hname : d'.name = disk.name) (b : Bool) :
    get_snapshots cfg cloud d' b = get_snapshots cfg cloud disk b := by
  unfold get_snapshots diskUri
  rw [hname]

/-- A snapshot created at the current instant is not obsolete when the
retention window is nonnegative. -/
theorem new_snap_not_obsolete {cfg : Snapshooter} (hmb : 0 ≤ cfg.max_age + cfg.bias)
    (nowSec : Int) {nm dsc : String} {u : String} :
    isObsolete cfg nowSec ⟨nm, dsc, nowSec, u⟩ = false := by
  simp only [isObsolete]
  simp only [sub_self]
  simp only [decide_eq_false_iff_not, not_lt]
  exact hmb

/-- Appending the freshly created snapshot does not change the owned
obsolete names when the retention window is nonnegative. -/
theorem ownedObsoleteNames_append_new {cfg : Snapshooter}
    (hmb : 0 ≤ cfg.max_age + cfg.bias) {cloud : Cloud} {disk : Disk}
    {nowSec : Int} {nm s : String} :
    ownedObsoleteNames cfg
      ⟨cloud.disks, cloud.snapshots ++ [⟨nm, cfg.marker ++ s, nowSec, diskUri cfg disk⟩]⟩
      disk nowSec = ownedObsoleteNames cfg cloud disk nowSec := by
  rw [ownedObsoleteNames_eq, ownedObsoleteNames_eq]
  show ((cloud.snapshots ++ _).filter _).map _ = _
  rw [List.filter_append]
  have hnew : (List.filter (fun t =>
      t.sourceDisk == diskUri cfg disk && pyStarts cfg.marker t.description
        && isObsolete cfg nowSec t)
      [⟨nm, cfg.marker ++ s, nowSec, diskUri cfg disk⟩]) = [] := by
    simp [List.filter, new_snap_not_obsolete hmb]
  rw [hnew, List.append_nil]

/-- C1: for every disk and instant, the staleness step of an eligible
disk deletes exactly the snapshots of that disk that carry the
ownership marker and satisfy `now - creationTimestamp > maxAge + bias`;
unmarked snapshots are never deleted, and the check runs whether or not
a fresh snapshot was found (no freshness hypothesis is needed). -/
theorem spec_C1 (cfg : Snapshooter) (lib : JsonLib) (cloud : Cloud) (disk : Disk)
    (now : PyDateTime) {d' : Disk} {ev : List Event}
    (hdry : cfg.dry_run = false) (hmb : 0 ≤ cfg.max_age + cfg.bias)
    (he : is_snapshots_enabled lib disk = .ok (true, d', ev)) :
    ∃ c a, handle_disk cfg lib cloud disk now = .ok (c, a) ∧
      a.deletes = (cloud.snapshots.filter fun s =>
          s.sourceDisk == diskUri cfg disk
            && pyStarts cfg.marker s.description
            && isObsolete cfg now.toSec s).map Snapshot.name := by
  obtain ⟨kvs, _, _, _, _, _, hd', _⟩ := enabled_ok_shape he
  have hname : d'.name = disk.name := by rw [hd']
  have hoon : ∀ cl : Cloud, ownedObsoleteNames cfg cl d' now.toSec
      = ownedObsoleteNames cfg cl disk now.toSec := by
    intro cl
    unfold ownedObsoleteNames
    rw [get_snapshots_meta hname]
  rcases hb : is_recent_snapshot_exists cfg cloud d' now with ⟨b, ev2⟩
  cases b with
  | true =>
    refine ⟨_, _, handle_disk_fresh_normal hdry he hb, ?_⟩
    rw [show (⟨[], ownedObsoleteNames cfg cloud d' now.toSec,
        (ownedObsoleteNames cfg cloud d' now.toSec).map (fun n => "delete-" ++ n),
        if cfg.is_async then []
        else (ownedObsoleteNames cfg cloud d' now.toSec).map (fun n => "delete-" ++ n),
        [Event.checking disk.name] ++ ev2
          ++ (ownedObsoleteNames cfg cloud d' now.toSec).map Event.deleting⟩ : Act).deletes
      = ownedObsoleteNames cfg cloud d' now.toSec from rfl]
    rw [hoon, ownedObsoleteNames_eq]
  | false =>
    have hb' : is_recent_snapshot_exists cfg cloud d' now = (false, []) :=
      recent_false_pair (by rw [hb])
    obtain ⟨kvs2, v, s, hmeta, hv, hs, hrun⟩ := handle_disk_stale_normal hdry he hb'
    simp only [] at hrun
    refine ⟨_, _, hrun, ?_⟩
    show ownedObsoleteNames cfg _ d' now.toSec = _
    have huri : diskUri cfg d' = diskUri cfg disk := by unfold diskUri; rw [hname]
    rw [hoon, huri, ownedObsoleteNames_append_new hmb, ownedObsoleteNames_eq]

/-- An owned snapshot of the demo disk older than `max_age + bias`. -/
def demoSnapOldOwned : Snapshot :=
  ⟨"pv-1--2018-01-01--00-00-00", "[auto] snap", demoNow.toSec - 6000000,
   diskUri demoCfg demoDisk⟩

/-- A foreign snapshot of the demo disk of the same old age, without
the ownership marker. -/
def demoSnapOldForeign : Snapshot :=
  ⟨"manual-backup", "taken by hand", demoNow.toSec - 6000000,
   diskUri demoCfg demoDisk⟩

/-- A young owned snapshot of the demo disk. -/
def demoSnapFresh : Snapshot :=
  ⟨"pv-1--2018-03-09--23-00-00", "[auto] snap", demoNow.toSec - 3600,
   diskUri demoCfg demoDisk⟩

/-- Demo cloud for the staleness claims: one old owned snapshot, one old
foreign snapshot, one fresh owned snapshot. -/
def demoCloudMixed : Cloud :=
  ⟨[demoDisk], [demoSnapOldOwned, demoSnapOldForeign, demoSnapFresh]⟩

set_option maxHeartbeats 2000000 in
/-- Witness for C1: on the mixed demo cloud the handling of the demo
disk deletes exactly the old owned snapshot -- not the equally old
foreign one, not the fresh one. -/
theorem spec_C1_witness :
    (∃ c a, handle_disk demoCfg demoLib demoCloudMixed demoDisk demoNow = .ok (c, a) ∧
      a.deletes = (demoCloudMixed.snapshots.filter fun s =>
          s.sourceDisk == diskUri demoCfg demoDisk
            && pyStarts demoCfg.marker s.description
            && isObsolete demoCfg demoNow.toSec s).map Snapshot.name) ∧
    (demoCloudMixed.snapshots.filter fun s =>
        s.sourceDisk == diskUri demoCfg demoDisk
          && pyStarts demoCfg.marker s.description
          && isObsolete demoCfg demoNow.toSec s).map Snapshot.name
      = ["pv-1--2018-01-01--00-00-00"] :=
  ⟨@spec_C1 demoCfg demoLib demoCloudMixed demoDisk demoNow
    ⟨"gke-pvc-1", some demoJsonText, some demoMeta⟩ [] rfl (by decide) (by rfl),
   by rfl⟩

/-- C5: for every eligible disk with no fresh snapshot in normal mode,
exactly one create call is issued; its name is the metadata
persistent-volume name, a double dash, and the spec's timestamp format
(colon-free, seconds precision, no timezone), and its description is
the ownership marker followed by the disk's original description. -/
theorem spec_C5 (cfg : Snapshooter) (lib : JsonLib) (cloud : Cloud) (disk : Disk)
    (now : PyDateTime) {d' : Disk} {ev : List Event}
    (hdry : cfg.dry_run = false)
    (he : is_snapshots_enabled lib disk = .ok (true, d', ev))
    (hrec : (is_recent_snapshot_exists cfg cloud d' now).1 = false) :
    ∃ c a kvs v s, handle_disk cfg lib cloud disk now = .ok (c, a) ∧
      d'.meta = some (PyVal.obj kvs) ∧ assocFind kvs pvKey = some v ∧
      disk.description = some s ∧
      a.creates = [(pyStr v ++ "--" ++ specTimestamp now, cfg.marker ++ s)] ∧
      ∀ ch ∈ (specTimestamp now).data, ch ≠ ':' := by
  have hb' : is_recent_snapshot_exists cfg cloud d' now = (false, []) :=
    recent_false_pair hrec
  obtain ⟨kvs, v, s, hmeta, hv, hs, hrun⟩ := handle_disk_stale_normal hdry he hb'
  simp only [] at hrun
  refine ⟨_, _, kvs, v, s, hrun, hmeta, hv, hs, ?_, ?_⟩
  · show [(pyStr v ++ "--" ++ String.mk (tsChars now), cfg.marker ++ s)] = _
    rw [tsChars_eq_spec]
  · rw [← tsChars_eq_spec]
    intro ch hch
    rw [show ∀ l : List Char, (String.mk l).data = l from fun _ => rfl] at hch
    exact @tsChars_no_colon ch now hch

/-- Witness for C5: the demo disk with only the nearly-min-age snapshot
gets exactly one create call named `pv-1--2018-03-10--00-00-00` with the
marked description. -/
theorem spec_C5_witness :
    ∃ c a kvs v s,
      handle_disk demoCfg demoLib demoCloudAlmost demoDisk demoNow = .ok (c, a) ∧
      (⟨"gke-pvc-1", some demoJsonText, some demoMeta⟩ : Disk).meta
        = some (PyVal.obj kvs) ∧ assocFind kvs pvKey = some v ∧
      demoDisk.description = some s ∧
      a.creates = [(pyStr v ++ "--" ++ specTimestamp demoNow, demoCfg.marker ++ s)] ∧
      ∀ ch ∈ (specTimestamp demoNow).data, ch ≠ ':' :=
  spec_C5 demoCfg demoLib demoCloudAlmost demoDisk demoNow rfl rfl rfl

/-- Unfolding equation of the per-disk loop on a nonempty disk list. -/
theorem per_disk_loop_cons {σ ε : Type} (handle : σ → Disk → Except ε σ)
    (st : σ) (d : Disk) (ds : List Disk) :
    per_disk_loop handle st (d :: ds) =
      match handle st d with
      | .ok st' => ((per_disk_loop handle st' ds).1,
          (d.name, (Option.none : Option ε)) :: (per_disk_loop handle st' ds).2)
      | .error e => ((per_disk_loop handle st ds).1,
          (d.name, some e) :: (per_disk_loop handle st ds).2) := rfl

/-- The per-disk loop produces one record per listed disk, in order. -/
theorem per_disk_loop_names {σ ε : Type} (handle : σ → Disk → Except ε σ)
    (st : σ) (ds : List Disk) :
    ((per_disk_loop handle st ds).2).map Prod.fst = ds.map Disk.name := by
  induction ds generalizing st with
  | nil => rfl
  | cons d rest ih =>
    unfold per_disk_loop
    cases h : handle st d <;> simp [h, ih]

/-- The per-disk loop over a concatenation runs the second part from
whatever state the first part reached -- failures in the first part do
not prevent the second part from being processed. -/
theorem per_disk_loop_append {σ ε : Type} (handle : σ → Disk → Except ε σ)
    (st : σ) (ds1 ds2 : List Disk) :
    per_disk_loop handle st (ds1 ++ ds2) =
      ((per_disk_loop handle (per_disk_loop handle st ds1).1 ds2).1,
       (per_disk_loop handle st ds1).2
         ++ (per_disk_loop handle (per_disk_loop handle st ds1).1 ds2).2) := by
  induction ds1 generalizing st with
  | nil => simp [per_disk_loop]
  | cons d rest ih =>
    rw [List.cons_append]
    simp only [per_disk_loop_cons]
    cases h : handle st d <;> simp only [h] <;> simp [ih]

/-- C7: any exception of one disk's handling is caught at the per-disk
boundary (the loop yields one outcome record per listed disk, and the
disks after a failure are still processed from the state the failure
left); the routine itself raises exactly when the initial disk listing
failed. -/
theorem spec_C7 :
    (∀ (σ ε : Type) (handle : σ → Disk → Except ε σ) (st : σ) (ds : List Disk),
      ((per_disk_loop handle st ds).2).map Prod.fst = ds.map Disk.name) ∧
    (∀ (σ ε : Type) (handle : σ → Disk → Except ε σ) (st : σ) (ds1 ds2 : List Disk),
      per_disk_loop handle st (ds1 ++ ds2) =
        ((per_disk_loop handle (per_disk_loop handle st ds1).1 ds2).1,
         (per_disk_loop handle st ds1).2
           ++ (per_disk_loop handle (per_disk_loop handle st ds1).1 ds2).2)) ∧
    (∀ (cfg : Snapshooter) (lib : JsonLib) (now : PyDateTime) (e : String),
      do_routine cfg lib now (.error e) = .error e) ∧
    (∀ (cfg : Snapshooter) (lib : JsonLib) (now : PyDateTime) (cloud : Cloud),
      do_routine cfg lib now (.ok cloud) = .ok (run_pass cfg lib cloud now)) :=
  ⟨fun _ _ => per_disk_loop_names, fun _ _ => per_disk_loop_append,
   fun _ _ _ _ => rfl, fun _ _ _ _ => rfl⟩

/-- Appending the empty action record on the right is the identity. -/
theorem Act.app_nil (a : Act) : a.app Act.nil = a := by
  cases a; simp [Act.app, Act.nil]

/-- Appending the empty action record on the left is the identity. -/
theorem Act.nil_app (a : Act) : Act.app Act.nil a = a := by
  cases a; simp [Act.app, Act.nil]

/-- Action concatenation is associative. -/
theorem Act.app_assoc (a b c : Act) : (a.app b).app c = a.app (b.app c) := by
  cases a; cases b; cases c; simp [Act.app]

/-- Two filters of a list commute. -/
theorem filter_comm' {α : Type} (p q : α → Bool) (l : List α) :
    (l.filter p).filter q = (l.filter q).filter p := by
  rw [List.filter_filter, List.filter_filter]
  exact List.filter_congr fun a _ => by cases p a <;> cases q a <;> rfl

/-- Two snapshots of the initial cloud that share a name are equal. -/
theorem snap_name_inj {c0 : Cloud} (hsnaps : (c0.snapshots.map Snapshot.name).Nodup)
    {s t : Snapshot} (hs : s ∈ c0.snapshots) (ht : t ∈ c0.snapshots)
    (hname : s.name = t.name) : s = t :=
  List.inj_on_of_nodup_map hsnaps hs ht hname

/-- Two disk URIs under one configuration agree only on equal names. -/
theorem diskUri_inj {cfg : Snapshooter} {d e : Disk}
    (h : diskUri cfg d = diskUri cfg e) : d.name = e.name := by
  have h2 := congrArg String.data h
  simp only [diskUri, String.data_append] at h2
  have h3 := List.append_cancel_left h2
  cases hd : d.name with
  | mk l1 =>
    cases he : e.name with
    | mk l2 =>
      rw [hd, he] at h3
      exact congrArg String.mk h3

/-- A fetched snapshot belongs to the cloud and to the requested disk. -/
theorem mem_get_snapshots_uri {cfg : Snapshooter} {cloud : Cloud} {dk : Disk}
    {b : Bool} {s : Snapshot} (hs : s ∈ get_snapshots cfg cloud dk b) :
    s ∈ cloud.snapshots ∧ s.sourceDisk = diskUri cfg dk := by
  unfold get_snapshots at hs
  have := List.mem_filter.mp hs
  refine ⟨this.1, ?_⟩
  have h2 := this.2
  cases hb : (s.sourceDisk == diskUri cfg dk) with
  | true => exact beq_iff_eq.mp hb
  | false => rw [hb] at h2; simp at h2

/-- Removing snapshots by a name list that avoids a disk's fetch leaves
that fetch unchanged. -/
theorem get_filter_names {cfg : Snapshooter} {c c1 : Cloud}
    {dk : Disk} {b : Bool} {D : List String}
    (hc1 : c1.snapshots = c.snapshots.filter fun s => !(D.contains s.name))
    (hD : ∀ s ∈ get_snapshots cfg c dk b, D.contains s.name = false) :
    get_snapshots cfg c1 dk b = get_snapshots cfg c dk b := by
  unfold get_snapshots
  rw [hc1, filter_comm']
  exact List.filter_eq_self.mpr fun a ha => by rw [hD a ha]; rfl

/-- Appending a snapshot of another disk leaves a disk's fetch
unchanged. -/
theorem get_append_foreign {cfg : Snapshooter} {c c1 : Cloud}
    {dk : Disk} {b : Bool} {new : Snapshot}
    (hc1 : c1.snapshots = c.snapshots ++ [new])
    (hne : (new.sourceDisk == diskUri cfg dk) = false) :
    get_snapshots cfg c1 dk b = get_snapshots cfg c dk b := by
  unfold get_snapshots
  rw [hc1, List.filter_append]
  have hnil : [new].filter (fun s =>
      s.sourceDisk == diskUri cfg dk
        && (!b || pyStarts cfg.marker s.description)) = [] := by
    simp [List.filter, hne]
  rw [hnil, List.append_nil]

/-- Appending an owned snapshot of the disk itself extends its fetch at
the end. -/
theorem get_append_own {cfg : Snapshooter} {c c1 : Cloud}
    {dk : Disk} {b : Bool} {new : Snapshot}
    (hc1 : c1.snapshots = c.snapshots ++ [new])
    (h1 : (new.sourceDisk == diskUri cfg dk) = true)
    (h2 : pyStarts cfg.marker new.description = true) :
    get_snapshots cfg c1 dk b = get_snapshots cfg c dk b ++ [new] := by
  unfold get_snapshots
  rw [hc1, List.filter_append]
  congr 1
  cases b <;> simp [List.filter, h1, h2]

/-- Core disjointness argument: the names deleted for one disk's fetch
never name a snapshot of another disk's fetch, provided both fetches
coincide with the initial cloud's and the initial snapshot names are
unique. -/
theorem fetch_names_disjoint {cfg : Snapshooter} {c0 cN : Cloud} {hd dd : Disk}
    {nowSec : Int} (b : Bool)
    (hsnaps : (c0.snapshots.map Snapshot.name).Nodup)
    (hGh : get_snapshots cfg cN hd true = get_snapshots cfg c0 hd true)
    (hGd : get_snapshots cfg cN dd b = get_snapshots cfg c0 dd b)
    (hne : diskUri cfg hd ≠ diskUri cfg dd) :
    ∀ s ∈ get_snapshots cfg cN dd b,
      (ownedObsoleteNames cfg cN hd nowSec).contains s.name = false := by
  intro s hs
  rw [hGd] at hs
  obtain ⟨hs0, hsuri⟩ := mem_get_snapshots_uri hs
  by_contra hcon
  have hmem : s.name ∈ ownedObsoleteNames cfg cN hd nowSec := by
    have hb : (ownedObsoleteNames cfg cN hd nowSec).contains s.name = true := by
      cases hx : (ownedObsoleteNames cfg cN hd nowSec).contains s.name
      · exact absurd hx hcon
      · rfl
    simpa using hb
  unfold ownedObsoleteNames at hmem
  obtain ⟨t, htf, htn⟩ := List.mem_map.mp hmem
  have ht1 := (List.mem_filter.mp htf).1
  rw [hGh] at ht1
  obtain ⟨ht0, hturi⟩ := mem_get_snapshots_uri ht1
  have hst : t = s := snap_name_inj hsnaps ht0 hs0 htn
  rw [hst] at hturi
  exact hne (hturi ▸ hsuri ▸ rfl)

/-- Normal-mode handling of one disk does not change the fetch of any
other disk, as long as both fetches still agreed with the initial cloud
and initial snapshot names are unique. -/
theorem handle_preserves_get {cfg : Snapshooter} {lib : JsonLib}
    {c0 cN cN1 : Cloud} {hd dd : Disk} {aN : Act} {now : PyDateTime}
    (hdry : cfg.dry_run = false)
    (hmb : 0 ≤ cfg.max_age + cfg.bias)
    (hsnaps : (c0.snapshots.map Snapshot.name).Nodup)
    (hGh : ∀ b, get_snapshots cfg cN hd b = get_snapshots cfg c0 hd b)
    (hGd : ∀ b, get_snapshots cfg cN dd b = get_snapshots cfg c0 dd b)
    (hne : hd.name ≠ dd.name)
    (hrun : handle_disk cfg lib cN hd now = .ok (cN1, aN)) :
    ∀ b, get_snapshots cfg cN1 dd b = get_snapshots cfg c0 dd b := by
  intro b
  have huri : diskUri cfg hd ≠ diskUri cfg dd := fun hcon => hne (diskUri_inj hcon)
  cases he : is_snapshots_enabled lib hd with
  | error e => rw [handle_disk_error he] at hrun; cases hrun
  | ok res =>
    obtain ⟨en, h2, ev⟩ := res
    cases en with
    | false =>
      rw [handle_disk_skip he] at hrun
      simp only [Except.ok.injEq, Prod.mk.injEq] at hrun
      rw [← hrun.1]
      exact hGd b
    | true =>
      obtain ⟨kvs, _, _, _, _, _, hd2, _⟩ := enabled_ok_shape he
      have hn2 : h2.name = hd.name := by rw [hd2]
      have huri2 : diskUri cfg h2 = diskUri cfg hd := by unfold diskUri; rw [hn2]
      have hGh2 : get_snapshots cfg cN h2 true = get_snapshots cfg c0 h2 true := by
        rw [get_snapshots_meta hn2, get_snapshots_meta hn2]
        exact hGh true
      have hne2 : diskUri cfg h2 ≠ diskUri cfg dd := by rw [huri2]; exact huri
      rcases hb2 : is_recent_snapshot_exists cfg cN h2 now with ⟨rb, ev2⟩
      cases rb with
      | true =>
        rw [handle_disk_fresh_normal hdry he hb2] at hrun
        simp only [Except.ok.injEq, Prod.mk.injEq] at hrun
        rw [← hrun.1]
        rw [get_filter_names rfl
          (fetch_names_disjoint b hsnaps hGh2 (hGd b) hne2)]
        exact hGd b
      | false =>
        have hb2' : is_recent_snapshot_exists cfg cN h2 now = (false, []) :=
          recent_false_pair (by rw [hb2])
        obtain ⟨kvs2, v, sdesc, hmeta, hv, hs, hrun'⟩ :=
          handle_disk_stale_normal hdry he hb2'
        simp only [] at hrun'
        set nsnap : Snapshot := ⟨pyStr v ++ "--" ++ String.mk (tsChars now),
          cfg.marker ++ sdesc, now.toSec, diskUri cfg h2⟩ with hnsnap
        set cPlus : Cloud := ⟨cN.disks, cN.snapshots ++ [nsnap]⟩ with hcPlus
        set delnames : List String := ownedObsoleteNames cfg cPlus h2 now.toSec
          with hdelnames
        rw [hrun'] at hrun
        simp only [Except.ok.injEq, Prod.mk.injEq] at hrun
        rw [← hrun.1]
        have hplus : ∀ b', get_snapshots cfg cPlus dd b'
            = get_snapshots cfg c0 dd b' := by
          intro b'
          rw [get_append_foreign (show cPlus.snapshots = cN.snapshots ++ [nsnap] by
              rw [hcPlus]) (by simp [hnsnap, hne2])]
          exact hGd b'
        have hplush : get_snapshots cfg cPlus h2 true
            = get_snapshots cfg c0 h2 true ++ [nsnap] := by
          rw [get_append_own (show cPlus.snapshots = cN.snapshots ++ [nsnap] by
              rw [hcPlus]) (by simp [hnsnap]) (by rw [hnsnap]; exact pyStarts_self_append _ _)]
          rw [hGh2]
        have hD9 : ∀ s1 ∈ get_snapshots cfg cPlus dd b,
            delnames.contains s1.name = false := by
          intro s1 hs1
          rw [hplus b] at hs1
          obtain ⟨hs0, hsuri⟩ := mem_get_snapshots_uri hs1
          by_contra hcon
          have hmem : s1.name ∈ delnames := by
            have hb3 : delnames.contains s1.name = true := by
              cases hx : delnames.contains s1.name
              · exact absurd hx hcon
              · rfl
            simpa using hb3
          rw [hdelnames] at hmem
          unfold ownedObsoleteNames at hmem
          obtain ⟨t, htf, htn⟩ := List.mem_map.mp hmem
          obtain ⟨ht1, htobs⟩ := List.mem_filter.mp htf
          rw [hplush] at ht1
          rcases List.mem_append.mp ht1 with ht1 | ht1
          · obtain ⟨ht0, hturi⟩ := mem_get_snapshots_uri ht1
            have hst : t = s1 := snap_name_inj hsnaps ht0 hs0 htn
            rw [hst] at hturi
            exact hne2 (hturi ▸ hsuri ▸ rfl)
          · have ht2 : t = nsnap := by simpa using ht1
            rw [ht2, hnsnap, new_snap_not_obsolete hmb] at htobs
            cases htobs
        have hstep := @get_filter_names cfg cPlus
          ⟨cN.disks, List.filter (fun t => !(delnames.contains t.name))
            (cN.snapshots ++ [nsnap])⟩
          dd b delnames (by rw [hcPlus]) hD9
        rw [hstep]
        exact hplus b

/-- The fetch does not depend on the dry-run flag. -/
theorem cfg_dry_get (cfg : Snapshooter) (x : Bool) (c : Cloud) (d : Disk) (b : Bool) :
    get_snapshots {cfg with dry_run := x} c d b = get_snapshots cfg c d b := rfl

/-- The owned obsolete names do not depend on the dry-run flag. -/
theorem cfg_dry_oon (cfg : Snapshooter) (x : Bool) (c : Cloud) (d : Disk) (n : Int) :
    ownedObsoleteNames {cfg with dry_run := x} c d n
      = ownedObsoleteNames cfg c d n := rfl

/-- The freshness check does not depend on the dry-run flag. -/
theorem cfg_dry_recent (cfg : Snapshooter) (x : Bool) (c : Cloud) (d : Disk)
    (now : PyDateTime) :
    is_recent_snapshot_exists {cfg with dry_run := x} c d now
      = is_recent_snapshot_exists cfg c d now := rfl

/-- One disk, dry run against the unchanged cloud versus normal run
against the evolved cloud: either both raise the same exception, or the
dry run issues nothing, leaves the cloud alone, and logs exactly the
lines the normal run logs. -/
theorem handle_disk_dry_normal {cfg : Snapshooter} {lib : JsonLib}
    {c0 cN : Cloud} {d : Disk} {now : PyDateTime}
    (hmb : 0 ≤ cfg.max_age + cfg.bias)
    (hGet : ∀ b, get_snapshots cfg cN d b = get_snapshots cfg c0 d b) :
    (∃ e, handle_disk {cfg with dry_run := true} lib c0 d now = .error e ∧
       handle_disk {cfg with dry_run := false} lib cN d now = .error e) ∨
    (∃ logE cN' aN, handle_disk {cfg with dry_run := true} lib c0 d now
         = .ok (c0, ⟨[], [], [], [], logE⟩) ∧
       handle_disk {cfg with dry_run := false} lib cN d now = .ok (cN', aN) ∧
       aN.log = logE) := by
  cases he : is_snapshots_enabled lib d with
  | error e =>
    exact Or.inl ⟨e, handle_disk_error he, handle_disk_error he⟩
  | ok res =>
    obtain ⟨en, d2, ev⟩ := res
    cases en with
    | false =>
      exact Or.inr ⟨[Event.checking d.name] ++ ev, cN, _,
        handle_disk_skip he, handle_disk_skip he, rfl⟩
    | true =>
      obtain ⟨kvs, _, _, _, _, _, hd2, hev⟩ := enabled_ok_shape he
      have hn2 : d2.name = d.name := by rw [hd2]
      have hrecEq : is_recent_snapshot_exists cfg cN d2 now
          = is_recent_snapshot_exists cfg c0 d2 now := by
        unfold is_recent_snapshot_exists
        rw [get_snapshots_meta hn2 false, hGet false, ← get_snapshots_meta hn2 false]
      have hoonEq : ownedObsoleteNames cfg cN d2 now.toSec
          = ownedObsoleteNames cfg c0 d2 now.toSec := by
        unfold ownedObsoleteNames
        rw [get_snapshots_meta hn2 true, hGet true, ← get_snapshots_meta hn2 true]
      rcases hb0 : is_recent_snapshot_exists cfg c0 d2 now with ⟨rb, ev2⟩
      have hbN : is_recent_snapshot_exists cfg cN d2 now = (rb, ev2) := by
        rw [hrecEq, hb0]
      cases rb with
      | true =>
        refine Or.inr ⟨_, _, _,
          handle_disk_fresh_dry rfl he hb0, handle_disk_fresh_normal rfl he hbN, ?_⟩
        show [Event.checking d.name] ++ ev2
            ++ (ownedObsoleteNames {cfg with dry_run := false} cN d2 now.toSec).map
              Event.deleting = _
        simp only [cfg_dry_oon, hoonEq]
      | false =>
        have hb0' : is_recent_snapshot_exists cfg c0 d2 now = (false, []) :=
          recent_false_pair (by rw [hb0])
        have hbN' : is_recent_snapshot_exists cfg cN d2 now = (false, []) := by
          rw [hrecEq]; exact hb0'
        obtain ⟨kvsA, vA, sA, hmetaA, hvA, hsA, hrunA⟩ :=
          @handle_disk_stale_dry {cfg with dry_run := true} lib c0 d d2 ev now
            rfl he hb0'
        obtain ⟨kvsB, vB, sB, hmetaB, hvB, hsB, hrunB⟩ :=
          @handle_disk_stale_normal {cfg with dry_run := false} lib cN d d2 ev now
            rfl he hbN'
        simp only [] at hrunB
        rw [hmetaA] at hmetaB
        have hk : kvsA = kvsB := by
          injection hmetaB with h1
          injection h1
        rw [← hk] at hvB
        rw [hvA] at hvB
        have hveq : vA = vB := by injection hvB
        rw [hsA] at hsB
        have hseq : sA = sB := by injection hsB
        refine Or.inr ⟨_, _, _, hrunA, hrunB, ?_⟩
        show [Event.checking d.name,
            Event.creating (pyStr vB ++ "--" ++ String.mk (tsChars now)) d.name]
            ++ (ownedObsoleteNames {cfg with dry_run := false}
                ⟨cN.disks, cN.snapshots ++ [⟨pyStr vB ++ "--" ++ String.mk (tsChars now),
                  ({cfg with dry_run := false} : Snapshooter).marker ++ sB, now.toSec,
                  diskUri {cfg with dry_run := false} d2⟩]⟩ d2 now.toSec).map
              Event.deleting = _
        rw [ownedObsoleteNames_append_new
          (show (0:Int) ≤ ({cfg with dry_run := false} : Snapshooter).max_age
            + ({cfg with dry_run := false} : Snapshooter).bias from hmb)]
        simp only [cfg_dry_oon, hoonEq]
        rw [← hveq]

/-- Concatenating two log-only action records concatenates the logs. -/
theorem Act.app_logonly (l1 l2 : List Event) :
    Act.app ⟨[], [], [], [], l1⟩ ⟨[], [], [], [], l2⟩
      = (⟨[], [], [], [], l1 ++ l2⟩ : Act) := by
  simp [Act.app]

/-- Pass-level dry-versus-normal comparison: over any suffix of the disk
list with pairwise distinct names, the dry pass keeps its cloud and
accumulates only log lines -- exactly the lines the normal pass
accumulates -- with identical per-disk outcome records. -/
theorem pass_dry_normal_aux (cfg : Snapshooter) (lib : JsonLib) (c0 : Cloud)
    (now : PyDateTime) (hmb : 0 ≤ cfg.max_age + cfg.bias)
    (hsnaps : (c0.snapshots.map Snapshot.name).Nodup) :
    ∀ (ds : List Disk) (cN : Cloud),
      (ds.map Disk.name).Nodup →
      (∀ d ∈ ds, ∀ b, get_snapshots cfg cN d b = get_snapshots cfg c0 d b) →
      ∀ (aD aN : Act),
      ∃ L cN' aN' att,
        per_disk_loop (pass_step {cfg with dry_run := true} lib now) (c0, aD) ds
          = ((c0, aD.app ⟨[], [], [], [], L⟩), att) ∧
        per_disk_loop (pass_step {cfg with dry_run := false} lib now) (cN, aN) ds
          = ((cN', aN.app aN'), att) ∧
        aN'.log = L := by
  intro ds
  induction ds with
  | nil =>
    intro cN _ _ aD aN
    refine ⟨[], cN, Act.nil, [], ?_, ?_, rfl⟩
    · rw [show (⟨[], [], [], [], []⟩ : Act) = Act.nil from rfl, Act.app_nil]
      rfl
    · rw [Act.app_nil]
      rfl
  | cons d rest ih =>
    intro cN hnodup hGet aD aN
    have hnodup' : (rest.map Disk.name).Nodup := by
      simp only [List.map_cons, List.nodup_cons] at hnodup
      exact hnodup.2
    have hdni : ∀ d' ∈ rest, d.name ≠ d'.name := by
      simp only [List.map_cons, List.nodup_cons] at hnodup
      intro d' hd' heq
      exact hnodup.1 (heq ▸ List.mem_map_of_mem Disk.name hd')
    rcases @handle_disk_dry_normal cfg lib c0 cN d now hmb
        (hGet d (List.mem_cons_self d rest)) with
      ⟨e, hde, hne⟩ | ⟨logE, cN1, aN1, hdok, hnok, hlogeq⟩
    · have hpsD : pass_step {cfg with dry_run := true} lib now (c0, aD) d
          = .error e := by
        simp only [pass_step, hde]
      have hpsN : pass_step {cfg with dry_run := false} lib now (cN, aN) d
          = .error e := by
        simp only [pass_step, hne]
      obtain ⟨L, cN', aN', att, hD2, hN2, hL2⟩ := ih cN hnodup'
        (fun d' hd' => hGet d' (List.mem_cons_of_mem d hd')) aD aN
      refine ⟨L, cN', aN', (d.name, some e) :: att, ?_, ?_, hL2⟩
      · rw [per_disk_loop_cons]
        simp only [hpsD, hD2]
      · rw [per_disk_loop_cons]
        simp only [hpsN, hN2]
    · have hpsD : pass_step {cfg with dry_run := true} lib now (c0, aD) d
          = .ok (c0, aD.app ⟨[], [], [], [], logE⟩) := by
        simp only [pass_step, hdok]
      have hpsN : pass_step {cfg with dry_run := false} lib now (cN, aN) d
          = .ok (cN1, aN.app aN1) := by
        simp only [pass_step, hnok]
      have hGet' : ∀ d' ∈ rest, ∀ b,
          get_snapshots cfg cN1 d' b = get_snapshots cfg c0 d' b := by
        intro d' hd' b
        exact @handle_preserves_get {cfg with dry_run := false} lib c0 cN cN1 d d'
          aN1 now rfl hmb hsnaps (hGet d (List.mem_cons_self d rest))
          (hGet d' (List.mem_cons_of_mem d hd')) (hdni d' hd') hnok b
      obtain ⟨L, cN', aN', att, hD2, hN2, hL2⟩ := ih cN1 hnodup' hGet'
        (aD.app ⟨[], [], [], [], logE⟩) (aN.app aN1)
      refine ⟨logE ++ L, cN', aN1.app aN', (d.name, Option.none) :: att, ?_, ?_, ?_⟩
      · rw [per_disk_loop_cons]
        simp only [hpsD, hD2]
        rw [Act.app_assoc, Act.app_logonly]
      · rw [per_disk_loop_cons]
        simp only [hpsN, hN2]
        rw [Act.app_assoc]
      · show (Act.app aN1 aN').log = _
        show aN1.log ++ aN'.log = _
        rw [hlogeq, hL2]

/-- C9: with dry-run enabled, a full pass over the same inputs makes the
same eligibility and age decisions as a normal pass (same decision log,
same per-disk outcome records), but issues zero create and zero delete
calls to the Gateway, performs no operation waits, records no issued
operations, and leaves the cloud untouched.  Stated for provider states
whose disk and snapshot names are unique, as the provider guarantees. -/
theorem spec_C9 (cfg : Snapshooter) (lib : JsonLib) (cloud : Cloud)
    (now : PyDateTime) (hmb : 0 ≤ cfg.max_age + cfg.bias)
    (hdisks : (cloud.disks.map Disk.name).Nodup)
    (hsnaps : (cloud.snapshots.map Snapshot.name).Nodup) :
    ∃ att L cN' aN',
      run_pass {cfg with dry_run := true} lib cloud now
        = ((cloud, ⟨[], [], [], [], L⟩), att) ∧
      run_pass {cfg with dry_run := false} lib cloud now
        = ((cN', aN'), att) ∧ aN'.log = L := by
  obtain ⟨L, cN', aN', att, hD, hN, hL⟩ := pass_dry_normal_aux cfg lib cloud now
    hmb hsnaps cloud.disks cloud hdisks (fun d hd b => rfl) Act.nil Act.nil
  refine ⟨att, L, cN', aN', ?_, ?_, hL⟩
  · unfold run_pass
    rw [hD, Act.nil_app]
  · unfold run_pass
    rw [hN, Act.nil_app]

/-- Witness for C9 at the mixed demo cloud. -/
theorem spec_C9_witness :
    ∃ att L cN' aN',
      run_pass {demoCfg with dry_run := true} demoLib demoCloudMixed demoNow
        = ((demoCloudMixed, ⟨[], [], [], [], L⟩), att) ∧
      run_pass {demoCfg with dry_run := false} demoLib demoCloudMixed demoNow
        = ((cN', aN'), att) ∧ aN'.log = L :=
  spec_C9 demoCfg demoLib demoCloudMixed demoNow (by decide) (by decide) (by decide)

/-- The snapshot name one pass would generate for a disk: the name of
the create call issued when the disk is eligible and stale. -/
def genNameOf (lib : JsonLib) (d : Disk) (now : PyDateTime) : Option String :=
  match is_snapshots_enabled lib d with
  | .ok (true, d', _) =>
    match generate_snapshot_name d' now with
    | .ok nm => some nm
    | .error _ => Option.none
  | _ => Option.none

/-- A snapshot within the freshness window is not past the retention
window, when the windows are ordered. -/
theorem fresh_not_obsolete {cfg : Snapshooter}
    (hmo : cfg.min_age - cfg.bias ≤ cfg.max_age + cfg.bias) {n : Int}
    {s : Snapshot} (hf : isFresh cfg n s = true) :
    isObsolete cfg n s = false := by
  simp only [isFresh, decide_eq_true_eq] at hf
  simp only [isObsolete, decide_eq_false_iff_not, not_lt]
  omega

/-- Reachability of an evolved provider state from the initial one: each
snapshot is an initial snapshot or a pass-created one (stamped at the
current instant and named by `genNameOf` of a listed disk). -/
def Reach (lib : JsonLib) (c0 : Cloud) (now : PyDateTime) (c : Cloud) : Prop :=
  ∀ s ∈ c.snapshots, s ∈ c0.snapshots ∨
    (s.creationTimestamp = now.toSec ∧
      ∃ dd ∈ c0.disks, genNameOf lib dd now = some s.name)

/-- The no-clash condition of a healthy provider state: no existing
snapshot bears a name this pass would generate. -/
def NoClash (lib : JsonLib) (c0 : Cloud) (now : PyDateTime) : Prop :=
  ∀ d ∈ c0.disks, ∀ s ∈ c0.snapshots, ∀ nm,
    genNameOf lib d now = some nm → s.name ≠ nm

/-- A deleted name (an obsolete snapshot of the handled disk) never
names a snapshot of another disk's current fetch, in a reachable state
with unique initial names and no name clash. -/
theorem fetch_names_disjoint2 {cfg : Snapshooter} {lib : JsonLib}
    {c0 cN : Cloud} {hd dd : Disk} {now : PyDateTime} (b : Bool)
    (hsnaps : (c0.snapshots.map Snapshot.name).Nodup)
    (hRe : Reach lib c0 now cN)
    (hcl : NoClash lib c0 now)
    (hGh : get_snapshots cfg cN hd true = get_snapshots cfg c0 hd true)
    (hne : diskUri cfg hd ≠ diskUri cfg dd) :
    ∀ s ∈ get_snapshots cfg cN dd b,
      (ownedObsoleteNames cfg cN hd now.toSec).contains s.name = false := by
  intro s hs
  obtain ⟨hs0, hsuri⟩ := mem_get_snapshots_uri hs
  by_contra hcon
  have hmem : s.name ∈ ownedObsoleteNames cfg cN hd now.toSec := by
    have hb3 : (ownedObsoleteNames cfg cN hd now.toSec).contains s.name = true := by
      cases hx : (ownedObsoleteNames cfg cN hd now.toSec).contains s.name
      · exact absurd hx hcon
      · rfl
    simpa using hb3
  unfold ownedObsoleteNames at hmem
  obtain ⟨t, htf, htn⟩ := List.mem_map.mp hmem
  obtain ⟨ht1, htobs⟩ := List.mem_filter.mp htf
  rw [hGh] at ht1
  obtain ⟨ht0, hturi⟩ := mem_get_snapshots_uri ht1
  rcases hRe s hs0 with hsc0 | ⟨hsts, ddg, hddg, hgen⟩
  · have hst : t = s := snap_name_inj hsnaps ht0 hsc0 htn
    rw [hst] at hturi
    exact hne (hturi ▸ hsuri ▸ rfl)
  · exact hcl ddg hddg t ht0 s.name hgen htn

/-- Normal-mode handling of one disk leaves the fetch of every
differently-named disk untouched, in a reachable clash-free state whose
handled disk still fetches as in the initial cloud. -/
theorem handle_preserves_get2 {cfg : Snapshooter} {lib : JsonLib}
    {c0 cN cN1 : Cloud} {hd dd : Disk} {aN : Act} {now : PyDateTime}
    (hdry : cfg.dry_run = false)
    (hmb : 0 ≤ cfg.max_age + cfg.bias)
    (hsnaps : (c0.snapshots.map Snapshot.name).Nodup)
    (hRe : Reach lib c0 now cN)
    (hcl : NoClash lib c0 now)
    (hGh : ∀ b, get_snapshots cfg cN hd b = get_snapshots cfg c0 hd b)
    (hne : hd.name ≠ dd.name)
    (hrun : handle_disk cfg lib cN hd now = .ok (cN1, aN)) :
    ∀ b, get_snapshots cfg cN1 dd b = get_snapshots cfg cN dd b := by
  intro b
  have huri : diskUri cfg hd ≠ diskUri cfg dd := fun hcon => hne (diskUri_inj hcon)
  cases he : is_snapshots_enabled lib hd with
  | error e => rw [handle_disk_error he] at hrun; cases hrun
  | ok res =>
    obtain ⟨en, h2, ev⟩ := res
    cases en with
    | false =>
      rw [handle_disk_skip he] at hrun
      simp only [Except.ok.injEq, Prod.mk.injEq] at hrun
      rw [← hrun.1]
    | true =>
      obtain ⟨kvs, _, _, _, _, _, hd2, _⟩ := enabled_ok_shape he
      have hn2 : h2.name = hd.name := by rw [hd2]
      have huri2 : diskUri cfg h2 = diskUri cfg hd := by unfold diskUri; rw [hn2]
      have hGh2 : get_snapshots cfg cN h2 true = get_snapshots cfg c0 h2 true := by
        rw [get_snapshots_meta hn2, get_snapshots_meta hn2]
        exact hGh true
      have hne2 : diskUri cfg h2 ≠ diskUri cfg dd := by rw [huri2]; exact huri
      rcases hb2 : is_recent_snapshot_exists cfg cN h2 now with ⟨rb, ev2⟩
      cases rb with
      | true =>
        rw [handle_disk_fresh_normal hdry he hb2] at hrun
        simp only [Except.ok.injEq, Prod.mk.injEq] at hrun
        rw [← hrun.1]
        exact get_filter_names rfl
          (fetch_names_disjoint2 b hsnaps hRe hcl hGh2 hne2)
      | false =>
        have hb2' : is_recent_snapshot_exists cfg cN h2 now = (false, []) :=
          recent_false_pair (by rw [hb2])
        obtain ⟨kvs2, v, sdesc, hmeta, hv, hs, hrun'⟩ :=
          handle_disk_stale_normal hdry he hb2'
        simp only [] at hrun'
        set nsnap : Snapshot := ⟨pyStr v ++ "--" ++ String.mk (tsChars now),
          cfg.marker ++ sdesc, now.toSec, diskUri cfg h2⟩ with hnsnap
        set cPlus : Cloud := ⟨cN.disks, cN.snapshots ++ [nsnap]⟩ with hcPlus
        set delnames : List String := ownedObsoleteNames cfg cPlus h2 now.toSec
          with hdelnames
        rw [hrun'] at hrun
        simp only [Except.ok.injEq, Prod.mk.injEq] at hrun
        rw [← hrun.1]
        have hplus : ∀ b', get_snapshots cfg cPlus dd b'
            = get_snapshots cfg cN dd b' := by
          intro b'
          rw [get_append_foreign (show cPlus.snapshots = cN.snapshots ++ [nsnap] by
              rw [hcPlus]) (by simp [hnsnap, hne2])]
        have hplush : get_snapshots cfg cPlus h2 true
            = get_snapshots cfg c0 h2 true ++ [nsnap] := by
          rw [get_append_own (show cPlus.snapshots = cN.snapshots ++ [nsnap] by
              rw [hcPlus]) (by simp) (by rw [hnsnap]; exact pyStarts_self_append _ _)]
          rw [hGh2]
        have hD9 : ∀ s1 ∈ get_snapshots cfg cPlus dd b,
            delnames.contains s1.name = false := by
          intro s1 hs1
          rw [hplus b] at hs1
          obtain ⟨hs0, hsuri⟩ := mem_get_snapshots_uri hs1
          by_contra hcon
          have hmem : s1.name ∈ delnames := by
            have hb3 : delnames.contains s1.name = true := by
              cases hx : delnames.contains s1.name
              · exact absurd hx hcon
              · rfl
            simpa using hb3
          rw [hdelnames] at hmem
          unfold ownedObsoleteNames at hmem
          obtain ⟨t, htf, htn⟩ := List.mem_map.mp hmem
          obtain ⟨ht1, htobs⟩ := List.mem_filter.mp htf
          rw [hplush] at ht1
          rcases List.mem_append.mp ht1 with ht1 | ht1
          · obtain ⟨ht0, hturi⟩ := mem_get_snapshots_uri ht1
            rcases hRe s1 hs0 with hsc0 | ⟨hsts, ddg, hddg, hgen⟩
            · have hst : t = s1 := snap_name_inj hsnaps ht0 hsc0 htn
              rw [hst] at hturi
              exact hne2 (hturi ▸ hsuri ▸ rfl)
            · exact hcl ddg hddg t ht0 s1.name hgen htn
          · have ht2 : t = nsnap := by simpa using ht1
            rw [ht2, hnsnap, new_snap_not_obsolete hmb] at htobs
            cases htobs
        have hstep := @get_filter_names cfg cPlus
          ⟨cN.disks, List.filter (fun t => !(delnames.contains t.name))
            (cN.snapshots ++ [nsnap])⟩
          dd b delnames (by rw [hcPlus]) hD9
        rw [hstep]
        exact hplus b

/-- A disk has a fresh-enough snapshot in the given provider state. -/
def freshInv (cfg : Snapshooter) (c : Cloud) (d : Disk) (now : PyDateTime) : Prop :=
  ∃ s ∈ get_snapshots cfg c d false, isFresh cfg now.toSec s = true

/-- No owned snapshot of the disk is past the retention window. -/
def obsInv (cfg : Snapshooter) (c : Cloud) (d : Disk) (now : PyDateTime) : Prop :=
  ∀ s ∈ get_snapshots cfg c d true, isObsolete cfg now.toSec s = false

/-- Handling any disk keeps the state reachable and the disk list
unchanged. -/
theorem handle_reach {cfg : Snapshooter} {lib : JsonLib} {c0 cN cN1 : Cloud}
    {d : Disk} {aN : Act} {now : PyDateTime}
    (hdry : cfg.dry_run = false)
    (hdmem : d ∈ c0.disks)
    (hRe : Reach lib c0 now cN)
    (hrun : handle_disk cfg lib cN d now = .ok (cN1, aN)) :
    Reach lib c0 now cN1 ∧ cN1.disks = cN.disks := by
  cases he : is_snapshots_enabled lib d with
  | error e => rw [handle_disk_error he] at hrun; cases hrun
  | ok res =>
    obtain ⟨en, d2, ev⟩ := res
    cases en with
    | false =>
      rw [handle_disk_skip he] at hrun
      simp only [Except.ok.injEq, Prod.mk.injEq] at hrun
      rw [← hrun.1]
      exact ⟨hRe, rfl⟩
    | true =>
      rcases hb2 : is_recent_snapshot_exists cfg cN d2 now with ⟨rb, ev2⟩
      cases rb with
      | true =>
        rw [handle_disk_fresh_normal hdry he hb2] at hrun
        simp only [Except.ok.injEq, Prod.mk.injEq] at hrun
        rw [← hrun.1]
        refine ⟨?_, rfl⟩
        intro s hs
        exact hRe s (List.mem_filter.mp hs).1
      | false =>
        have hb2' : is_recent_snapshot_exists cfg cN d2 now = (false, []) :=
          recent_false_pair (by rw [hb2])
        obtain ⟨kvs2, v, sdesc, hmeta, hv, hs, hrun'⟩ :=
          handle_disk_stale_normal hdry he hb2'
        simp only [] at hrun'
        rw [hrun'] at hrun
        simp only [Except.ok.injEq, Prod.mk.injEq] at hrun
        rw [← hrun.1]
        refine ⟨?_, rfl⟩
        intro s1 hs1
        have hs2 := (List.mem_filter.mp hs1).1
        rcases List.mem_append.mp hs2 with hs3 | hs3
        · exact hRe s1 hs3
        · have hs4 : s1 = ⟨pyStr v ++ "--" ++ String.mk (tsChars now),
              cfg.marker ++ sdesc, now.toSec, diskUri cfg d2⟩ := by simpa using hs3
          right
          refine ⟨by rw [hs4], d, hdmem, ?_⟩
          have hname2 : generate_snapshot_name d2 now
              = .ok (pyStr v ++ "--" ++ String.mk (tsChars now)) := by
            simp only [generate_snapshot_name, hmeta, hv]
          simp only [genNameOf, he, hname2]
          rw [hs4]

/-- Handling an eligible disk in normal mode establishes its
steady-state invariants: a fresh snapshot exists afterwards and no owned
snapshot is past the retention window. -/
theorem handle_establishes {cfg : Snapshooter} {lib : JsonLib} {c0 cN cN1 : Cloud}
    {d d2 : Disk} {ev : List Event} {aN : Act} {now : PyDateTime}
    (hdry : cfg.dry_run = false)
    (hmb : 0 ≤ cfg.max_age + cfg.bias)
    (hf0 : 0 ≤ cfg.min_age - cfg.bias)
    (hmo : cfg.min_age - cfg.bias ≤ cfg.max_age + cfg.bias)
    (hsnaps : (c0.snapshots.map Snapshot.name).Nodup)
    (hcl : NoClash lib c0 now)
    (hdmem : d ∈ c0.disks)
    (hGd : ∀ b, get_snapshots cfg cN d b = get_snapshots cfg c0 d b)
    (he : is_snapshots_enabled lib d = .ok (true, d2, ev))
    (hrun : handle_disk cfg lib cN d now = .ok (cN1, aN)) :
    freshInv cfg cN1 d now ∧ obsInv cfg cN1 d now := by
  obtain ⟨kvs, _, _, _, _, _, hd2, _⟩ := enabled_ok_shape he
  have hn2 : d2.name = d.name := by rw [hd2]
  have huri2 : diskUri cfg d2 = diskUri cfg d := by unfold diskUri; rw [hn2]
  have hGd2 : ∀ b, get_snapshots cfg cN d2 b = get_snapshots cfg cN d b :=
    fun b => get_snapshots_meta hn2 b
  have hDmem : ∀ nm ∈ ownedObsoleteNames cfg cN d2 now.toSec,
      ∃ t ∈ c0.snapshots, t.sourceDisk = diskUri cfg d ∧ t.name = nm ∧
        isObsolete cfg now.toSec t = true := by
    intro nm hnm
    unfold ownedObsoleteNames at hnm
    obtain ⟨t, htf, htn⟩ := List.mem_map.mp hnm
    obtain ⟨ht1, htobs⟩ := List.mem_filter.mp htf
    rw [hGd2 true, hGd true] at ht1
    obtain ⟨ht0, hturi⟩ := mem_get_snapshots_uri ht1
    exact ⟨t, ht0, hturi, htn, htobs⟩
  rcases hb2 : is_recent_snapshot_exists cfg cN d2 now with ⟨rb, ev2⟩
  cases rb with
  | true =>
    obtain ⟨sf, hsfmem, hsfuri, hsfage⟩ := (recent_iff cfg cN d2 now).mp (by rw [hb2])
    rw [handle_disk_fresh_normal hdry he hb2] at hrun
    simp only [Except.ok.injEq, Prod.mk.injEq] at hrun
    have hcn1 : cN1.snapshots = cN.snapshots.filter fun s =>
        !((ownedObsoleteNames cfg cN d2 now.toSec).contains s.name) := by
      rw [← hrun.1]
    have hfr : isFresh cfg now.toSec sf = true := by
      simp only [isFresh, decide_eq_true_eq]; exact hsfage
    have hsf0 : sf ∈ c0.snapshots := by
      have hmm : sf ∈ get_snapshots cfg cN d2 false :=
        mem_get_snapshots_all.mpr ⟨hsfmem, hsfuri⟩
      rw [hGd2 false, hGd false] at hmm
      exact (mem_get_snapshots_uri hmm).1
    have hsfD : (ownedObsoleteNames cfg cN d2 now.toSec).contains sf.name = false := by
      by_contra hcon
      have hmm : sf.name ∈ ownedObsoleteNames cfg cN d2 now.toSec := by
        cases hx : (ownedObsoleteNames cfg cN d2 now.toSec).contains sf.name
        · exact absurd hx hcon
        · simpa using hx
      obtain ⟨t, ht0, hturi, htn, htobs⟩ := hDmem sf.name hmm
      have hts : t = sf := snap_name_inj hsnaps ht0 hsf0 htn
      rw [hts, fresh_not_obsolete hmo hfr] at htobs
      cases htobs
    constructor
    · refine ⟨sf, ?_, hfr⟩
      refine mem_get_snapshots_all.mpr ⟨?_, by rw [hsfuri, huri2]⟩
      rw [hcn1]
      refine List.mem_filter.mpr ⟨hsfmem, ?_⟩
      rw [hsfD]
      rfl
    · intro u hu
      by_contra hobs
      have hobs' : isObsolete cfg now.toSec u = true := by
        cases hx : isObsolete cfg now.toSec u
        · exact absurd hx hobs
        · rfl
      unfold get_snapshots at hu
      rw [hcn1] at hu
      have h1 := List.mem_filter.mp hu
      have h2 := List.mem_filter.mp h1.1
      have huf : u ∈ get_snapshots cfg cN d true := by
        unfold get_snapshots
        exact List.mem_filter.mpr ⟨h2.1, h1.2⟩
      have hmemD : u.name ∈ ownedObsoleteNames cfg cN d2 now.toSec := by
        unfold ownedObsoleteNames
        refine List.mem_map.mpr ⟨u, List.mem_filter.mpr ⟨?_, hobs'⟩, rfl⟩
        rw [hGd2 true]
        exact huf
      have hc2 : (ownedObsoleteNames cfg cN d2 now.toSec).contains u.name = true := by
        simpa using hmemD
      rw [hc2] at h2
      simp at h2
  | false =>
    have hb2' : is_recent_snapshot_exists cfg cN d2 now = (false, []) :=
      recent_false_pair (by rw [hb2])
    obtain ⟨kvs2, v, sdesc, hmeta, hv, hs, hrun'⟩ :=
      handle_disk_stale_normal hdry he hb2'
    simp only [] at hrun'
    set nsnap : Snapshot := ⟨pyStr v ++ "--" ++ String.mk (tsChars now),
      cfg.marker ++ sdesc, now.toSec, diskUri cfg d2⟩ with hnsnap
    set cPlus : Cloud := ⟨cN.disks, cN.snapshots ++ [nsnap]⟩ with hcPlus
    set delnames : List String := ownedObsoleteNames cfg cPlus d2 now.toSec
      with hdelnames
    rw [hrun'] at hrun
    simp only [Except.ok.injEq, Prod.mk.injEq] at hrun
    have hD1eq : delnames = ownedObsoleteNames cfg cN d2 now.toSec := by
      simp only [hdelnames, hcPlus, hnsnap]
      exact ownedObsoleteNames_append_new hmb
    have hcn1 : cN1.snapshots = (cN.snapshots ++ [nsnap]).filter fun s =>
        !(delnames.contains s.name) := by
      rw [← hrun.1]
    have hgen : genNameOf lib d now
        = some (pyStr v ++ "--" ++ String.mk (tsChars now)) := by
      have hname2 : generate_snapshot_name d2 now
          = .ok (pyStr v ++ "--" ++ String.mk (tsChars now)) := by
        simp only [generate_snapshot_name, hmeta, hv]
      simp only [genNameOf, he, hname2]
    have hnsD : delnames.contains nsnap.name = false := by
      by_contra hcon
      have hmm : nsnap.name ∈ delnames := by
        cases hx : delnames.contains nsnap.name
        · exact absurd hx hcon
        · simpa using hx
      rw [hD1eq] at hmm
      obtain ⟨t, ht0, hturi, htn, htobs⟩ := hDmem _ hmm
      refine hcl d hdmem t ht0 nsnap.name ?_ htn
      rw [hnsnap]
      exact hgen
    constructor
    · refine ⟨nsnap, ?_, ?_⟩
      · refine mem_get_snapshots_all.mpr ⟨?_, ?_⟩
        · rw [hcn1]
          refine List.mem_filter.mpr ⟨List.mem_append.mpr (Or.inr (by simp)), ?_⟩
          show (!(delnames.contains nsnap.name)) = true
          rw [hnsD]
          rfl
        · show nsnap.sourceDisk = _
          rw [hnsnap]
          exact huri2
      · show isFresh cfg now.toSec nsnap = true
        rw [hnsnap]
        simp only [isFresh]
        simp only [sub_self, decide_eq_true_eq]
        exact hf0
    · intro u hu
      by_contra hobs
      have hobs' : isObsolete cfg now.toSec u = true := by
        cases hx : isObsolete cfg now.toSec u
        · exact absurd hx hobs
        · rfl
      unfold get_snapshots at hu
      rw [hcn1] at hu
      have h1 := List.mem_filter.mp hu
      have h2 := List.mem_filter.mp h1.1
      rcases List.mem_append.mp h2.1 with h3 | h3
      · have huf : u ∈ get_snapshots cfg cN d true := by
          unfold get_snapshots
          exact List.mem_filter.mpr ⟨h3, h1.2⟩
        have hmemD : u.name ∈ ownedObsoleteNames cfg cN d2 now.toSec := by
          unfold ownedObsoleteNames
          refine List.mem_map.mpr ⟨u, List.mem_filter.mpr ⟨?_, hobs'⟩, rfl⟩
          rw [hGd2 true]
          exact huf
        have hc2 : delnames.contains u.name = true := by
          rw [hD1eq]
          simpa using hmemD
        rw [hc2] at h2
        simp at h2
      · have hu4 : u = nsnap := by simpa using h3
        rw [hu4, hnsnap, new_snap_not_obsolete hmb] at hobs'
        cases hobs'

/-- First-pass induction: running the pass over disks with pairwise
distinct names, from a reachable state whose listed-disk fetches agree
with the initial cloud, establishes the steady-state invariants for
every eligible listed disk, keeps the state reachable, and leaves
fetches of unlisted names and the disk list unchanged. -/
theorem pass1_aux (cfg : Snapshooter) (lib : JsonLib) (c0 : Cloud) (now : PyDateTime)
    (hdry : cfg.dry_run = false)
    (hmb : 0 ≤ cfg.max_age + cfg.bias)
    (hf0 : 0 ≤ cfg.min_age - cfg.bias)
    (hmo : cfg.min_age - cfg.bias ≤ cfg.max_age + cfg.bias)
    (hsnaps : (c0.snapshots.map Snapshot.name).Nodup)
    (hcl : NoClash lib c0 now) :
    ∀ (ds : List Disk) (cN : Cloud) (a0 : Act),
      (ds.map Disk.name).Nodup →
      (∀ d ∈ ds, d ∈ c0.disks) →
      (∀ d ∈ ds, ∀ b, get_snapshots cfg cN d b = get_snapshots cfg c0 d b) →
      Reach lib c0 now cN →
      (∀ d ∈ ds, ∀ d2 ev, is_snapshots_enabled lib d = .ok (true, d2, ev) →
        freshInv cfg (per_disk_loop (pass_step cfg lib now) (cN, a0) ds).1.1 d now ∧
        obsInv cfg (per_disk_loop (pass_step cfg lib now) (cN, a0) ds).1.1 d now) ∧
      Reach lib c0 now (per_disk_loop (pass_step cfg lib now) (cN, a0) ds).1.1 ∧
      (∀ dd : Disk, dd.name ∉ ds.map Disk.name →
        ∀ b, get_snapshots cfg
          (per_disk_loop (pass_step cfg lib now) (cN, a0) ds).1.1 dd b
          = get_snapshots cfg cN dd b) ∧
      (per_disk_loop (pass_step cfg lib now) (cN, a0) ds).1.1.disks = cN.disks := by
  intro ds
  induction ds with
  | nil =>
    intro cN a0 _ _ _ hRe
    exact ⟨fun d hd => absurd hd (List.not_mem_nil d), hRe, fun dd _ b => rfl, rfl⟩
  | cons d rest ih =>
    intro cN a0 hnodup hmem hGet hRe
    have hnodup' : (rest.map Disk.name).Nodup := by
      simp only [List.map_cons, List.nodup_cons] at hnodup
      exact hnodup.2
    have hdni : ∀ d' ∈ rest, d.name ≠ d'.name := by
      simp only [List.map_cons, List.nodup_cons] at hnodup
      intro d' hd' heq
      exact hnodup.1 (heq ▸ List.mem_map_of_mem Disk.name hd')
    cases hh : handle_disk cfg lib cN d now with
    | error e =>
      have hps : pass_step cfg lib now (cN, a0) d = .error e := by
        simp only [pass_step, hh]
      have hcf : (per_disk_loop (pass_step cfg lib now) (cN, a0) (d :: rest)).1.1
          = (per_disk_loop (pass_step cfg lib now) (cN, a0) rest).1.1 := by
        simp only [per_disk_loop_cons, hps]
      obtain ⟨hA, hB, hC, hD⟩ := ih cN a0 hnodup'
        (fun d' hd' => hmem d' (List.mem_cons_of_mem d hd'))
        (fun d' hd' => hGet d' (List.mem_cons_of_mem d hd')) hRe
      rw [hcf]
      refine ⟨?_, hB, ?_, hD⟩
      · intro dx hdx d2 ev he
        rcases List.mem_cons.mp hdx with hdx | hdx
        · subst hdx
          rcases hb2 : is_recent_snapshot_exists cfg cN d2 now with ⟨rb, ev2⟩
          cases rb with
          | true =>
            rw [handle_disk_fresh_normal hdry he hb2] at hh
            cases hh
          | false =>
            have hb2' : is_recent_snapshot_exists cfg cN d2 now = (false, []) :=
              recent_false_pair (by rw [hb2])
            obtain ⟨kvs2, v, sdesc, hmeta, hv, hsd, hrun'⟩ :=
              handle_disk_stale_normal hdry he hb2'
            simp only [] at hrun'
            rw [hrun'] at hh
            cases hh
        · exact hA dx hdx d2 ev he
      · intro dd hdd b
        exact hC dd (fun hx => hdd (List.mem_cons_of_mem _ hx)) b
    | ok res =>
      obtain ⟨cN1, aN1⟩ := res
      have hps : pass_step cfg lib now (cN, a0) d = .ok (cN1, a0.app aN1) := by
        simp only [pass_step, hh]
      have hcf : (per_disk_loop (pass_step cfg lib now) (cN, a0) (d :: rest)).1.1
          = (per_disk_loop (pass_step cfg lib now) (cN1, a0.app aN1) rest).1.1 := by
        simp only [per_disk_loop_cons, hps]
      obtain ⟨hRe1, hdisks1⟩ := handle_reach hdry (hmem d (List.mem_cons_self d rest))
        hRe hh
      have hpres : ∀ d' : Disk, d.name ≠ d'.name →
          ∀ b, get_snapshots cfg cN1 d' b = get_snapshots cfg cN d' b := by
        intro d' hne b
        exact handle_preserves_get2 hdry hmb hsnaps hRe hcl
          (hGet d (List.mem_cons_self d rest)) hne hh b
      have hGet' : ∀ d' ∈ rest, ∀ b,
          get_snapshots cfg cN1 d' b = get_snapshots cfg c0 d' b := by
        intro d' hd' b
        rw [hpres d' (hdni d' hd') b]
        exact hGet d' (List.mem_cons_of_mem d hd') b
      obtain ⟨hA, hB, hC, hD⟩ := ih cN1 (a0.app aN1) hnodup'
        (fun d' hd' => hmem d' (List.mem_cons_of_mem d hd')) hGet' hRe1
      rw [hcf]
      refine ⟨?_, hB, ?_, by rw [hD, hdisks1]⟩
      · intro dx hdx d2 ev he
        rcases List.mem_cons.mp hdx with hdx | hdx
        · subst hdx
          have hdn : dx.name ∉ rest.map Disk.name := by
            simp only [List.map_cons, List.nodup_cons] at hnodup
            exact hnodup.1
          have hfin : ∀ b, get_snapshots cfg
              (per_disk_loop (pass_step cfg lib now) (cN1, a0.app aN1) rest).1.1 dx b
              = get_snapshots cfg cN1 dx b := fun b => hC dx hdn b
          obtain ⟨hfr, hob⟩ := handle_establishes hdry hmb hf0 hmo hsnaps hcl
            (hmem dx (List.mem_cons_self dx rest))
            (hGet dx (List.mem_cons_self dx rest)) he hh
          constructor
          · unfold freshInv at hfr ⊢
            rw [hfin false]
            exact hfr
          · unfold obsInv at hob ⊢
            rw [hfin true]
            exact hob
        · exact hA dx hdx d2 ev he
      · intro dd hdd b
        have h1 : dd.name ∉ rest.map Disk.name :=
          fun hx => hdd (List.mem_cons_of_mem _ hx)
        have h2 : d.name ≠ dd.name := by
          intro heq
          exact hdd (by simp [← heq])
        rw [hC dd h1 b, hpres dd h2 b]

/-- Second-pass induction: once every eligible listed disk satisfies the
steady-state invariants, a normal pass issues nothing at all -- the
cloud stays fixed and only log lines accumulate. -/
theorem pass2_aux (cfg : Snapshooter) (lib : JsonLib) (now : PyDateTime)
    (hdry : cfg.dry_run = false) :
    ∀ (ds : List Disk) (cF : Cloud) (a0 : Act),
      (∀ d ∈ ds, ∀ d2 ev, is_snapshots_enabled lib d = .ok (true, d2, ev) →
        freshInv cfg cF d now ∧ obsInv cfg cF d now) →
      ∃ L att, per_disk_loop (pass_step cfg lib now) (cF, a0) ds
        = ((cF, a0.app ⟨[], [], [], [], L⟩), att) := by
  intro ds
  induction ds with
  | nil =>
    intro cF a0 _
    refine ⟨[], [], ?_⟩
    rw [show (⟨[], [], [], [], []⟩ : Act) = Act.nil from rfl, Act.app_nil]
    rfl
  | cons d rest ih =>
    intro cF a0 hInv
    have hInv' := fun d' hd' => hInv d' (List.mem_cons_of_mem d hd')
    cases he : is_snapshots_enabled lib d with
    | error e =>
      have hh : handle_disk cfg lib cF d now = .error e := handle_disk_error he
      have hps : pass_step cfg lib now (cF, a0) d = .error e := by
        simp only [pass_step, hh]
      obtain ⟨L, att, hL⟩ := ih cF a0 hInv'
      exact ⟨L, (d.name, some e) :: att, by simp only [per_disk_loop_cons, hps, hL]⟩
    | ok res =>
      obtain ⟨en, d2, ev⟩ := res
      cases en with
      | false =>
        have hh : handle_disk cfg lib cF d now
            = .ok (cF, ⟨[], [], [], [], [Event.checking d.name] ++ ev⟩) :=
          handle_disk_skip he
        have hps : pass_step cfg lib now (cF, a0) d
            = .ok (cF, a0.app ⟨[], [], [], [], [Event.checking d.name] ++ ev⟩) := by
          simp only [pass_step, hh]
        obtain ⟨L, att, hL⟩ := ih cF
          (a0.app ⟨[], [], [], [], [Event.checking d.name] ++ ev⟩) hInv'
        refine ⟨([Event.checking d.name] ++ ev) ++ L, (d.name, Option.none) :: att, ?_⟩
        simp only [per_disk_loop_cons, hps, hL]
        rw [Act.app_assoc, Act.app_logonly]
      | true =>
        obtain ⟨hfr, hob⟩ := hInv d (List.mem_cons_self d rest) d2 ev he
        obtain ⟨kvs, _, _, _, _, _, hd2, _⟩ := enabled_ok_shape he
        have hn2 : d2.name = d.name := by rw [hd2]
        have huri2 : diskUri cfg d2 = diskUri cfg d := by unfold diskUri; rw [hn2]
        have hrec1 : (is_recent_snapshot_exists cfg cF d2 now).1 = true := by
          obtain ⟨sf, hsf, hsfage⟩ := hfr
          obtain ⟨hsf0, hsfuri⟩ := mem_get_snapshots_uri hsf
          refine (recent_iff cfg cF d2 now).mpr ⟨sf, hsf0, by rw [hsfuri, huri2], ?_⟩
          simpa [isFresh] using hsfage
        rcases hbp : is_recent_snapshot_exists cfg cF d2 now with ⟨rb, ev2⟩
        cases rb with
        | false => rw [hbp] at hrec1; cases hrec1
        | true =>
          have hDnil : ownedObsoleteNames cfg cF d2 now.toSec = [] := by
            unfold ownedObsoleteNames
            rw [get_snapshots_meta hn2 true]
            have hfe : List.filter (isObsolete cfg now.toSec)
                (get_snapshots cfg cF d true) = [] := by
              rw [List.filter_eq_nil_iff]
              intro a ha
              rw [hob a ha]
              simp
            rw [hfe]
            rfl
          have hfilter : List.filter
              (fun s => !(List.contains ([] : List String) s.name))
              cF.snapshots = cF.snapshots :=
            List.filter_eq_self.mpr fun a ha => rfl
          have hh : handle_disk cfg lib cF d now
              = .ok (cF, ⟨[], [], [], [], [Event.checking d.name] ++ ev2⟩) := by
            rw [handle_disk_fresh_normal hdry he hbp, hDnil, hfilter]
            simp [ite_self]
          have hps : pass_step cfg lib now (cF, a0) d
              = .ok (cF, a0.app ⟨[], [], [], [], [Event.checking d.name] ++ ev2⟩) := by
            simp only [pass_step, hh]
          obtain ⟨L, att, hL⟩ := ih cF
            (a0.app ⟨[], [], [], [], [Event.checking d.name] ++ ev2⟩) hInv'
          refine ⟨([Event.checking d.name] ++ ev2) ++ L,
            (d.name, Option.none) :: att, ?_⟩
          simp only [per_disk_loop_cons, hps, hL]
          rw [Act.app_assoc, Act.app_logonly]

/-- C6: with dry-run disabled, synchronous mode and zero bias, running a
full pass twice in immediate succession with no external changes makes
the second pass issue no create call and no delete call at all: the
first pass left every eligible disk with a fresh snapshot and no owned
obsolete snapshot.  Stated for provider states with unique disk and
snapshot names in which no existing snapshot already bears a name this
pass would generate, as a healthy provider guarantees. -/
theorem spec_C6 (cfg : Snapshooter) (lib : JsonLib) (c0 : Cloud) (now : PyDateTime)
    (hdry : cfg.dry_run = false) (_hasync : cfg.is_async = false)
    (hbias : cfg.bias = 0) (hmin : 0 ≤ cfg.min_age)
    (hminmax : cfg.min_age ≤ cfg.max_age)
    (hdisks : (c0.disks.map Disk.name).Nodup)
    (hsnaps : (c0.snapshots.map Snapshot.name).Nodup)
    (hcl : NoClash lib c0 now) :
    ∃ st1 att1 L att2,
      run_pass cfg lib c0 now = (st1, att1) ∧
      run_pass cfg lib st1.1 now = ((st1.1, ⟨[], [], [], [], L⟩), att2) := by
  have hmb : 0 ≤ cfg.max_age + cfg.bias := by omega
  have hf0 : 0 ≤ cfg.min_age - cfg.bias := by omega
  have hmo : cfg.min_age - cfg.bias ≤ cfg.max_age + cfg.bias := by omega
  obtain ⟨hA, hB, hC, hD⟩ := pass1_aux cfg lib c0 now hdry hmb hf0 hmo hsnaps hcl
    c0.disks c0 Act.nil hdisks (fun d hd => hd) (fun d hd b => rfl)
    (fun s hs => Or.inl hs)
  rcases hrp : run_pass cfg lib c0 now with ⟨st1, att1⟩
  have hcf : st1.1
      = (per_disk_loop (pass_step cfg lib now) (c0, Act.nil) c0.disks).1.1 := by
    unfold run_pass at hrp
    rw [hrp]
  have hdisks2 : st1.1.disks = c0.disks := by rw [hcf]; exact hD
  have hInvF : ∀ d ∈ c0.disks, ∀ d2 ev,
      is_snapshots_enabled lib d = .ok (true, d2, ev) →
      freshInv cfg st1.1 d now ∧ obsInv cfg st1.1 d now := by
    intro d hd d2 ev he
    rw [hcf]
    exact hA d hd d2 ev he
  obtain ⟨L, att2, hL⟩ := pass2_aux cfg lib now hdry c0.disks st1.1 Act.nil hInvF
  rw [Act.nil_app] at hL
  refine ⟨st1, att1, L, att2, rfl, ?_⟩
  unfold run_pass
  rw [hdisks2, hL]

/-- The zero-bias demo configuration. -/
def demoCfgB0 : Snapshooter := { demoCfg with bias := 0 }

set_option maxHeartbeats 4000000 in
/-- Witness for C6 at the mixed demo cloud with zero bias. -/
theorem spec_C6_witness :
    ∃ st1 att1 L att2,
      run_pass demoCfgB0 demoLib demoCloudMixed demoNow = (st1, att1) ∧
      run_pass demoCfgB0 demoLib st1.1 demoNow = ((st1.1, ⟨[], [], [], [], L⟩), att2) := by
  refine spec_C6 demoCfgB0 demoLib demoCloudMixed demoNow rfl rfl rfl (by decide)
    (by decide) (by decide) (by decide) ?_
  intro d hd s hs nm hgen
  have hd' : d = demoDisk := by
    simpa [demoCloudMixed] using hd
  subst hd'
  have hg : genNameOf demoLib demoDisk demoNow
      = some "pv-1--2018-03-10--00-00-00" := by rfl
  rw [hg] at hgen
  injection hgen with hnm
  subst hnm
  have hs' : s = demoSnapOldOwned ∨ s = demoSnapOldForeign ∨ s = demoSnapFresh := by
    simpa [demoCloudMixed] using hs
  rcases hs' with h | h | h <;> subst h <;> decide
